import Mathlib

/-!
Verification of the cubitpy mesh-to-solver-deck conversion component.

This file gives a shallow embedding of the conversion code in
`cubitpy/cubit_to_fourc_input.py` and of the argument-normalization utility
`formatter` in `cubitpy/cubit_utility.py`, and proves the spec claims about
them.

Modelling conventions:
* The exodus (mesh-exchange) file is a read-only record of the variable
  arrays the converter actually reads (`ns_prop1`, `ns_names`, `node_ns<k>`,
  `eb_prop1`, `eb_names`, `connect<k>`, `coordx/y/z`).
* Python dicts that are built by in-order insertion of fresh keys are
  modelled as association lists in insertion order; lookups are first-match.
* The fourcipp `InputFile` deck is modelled as an ordered association list
  from section name to the list of records in that section.  Creating a
  section appends it at the end; writing an existing name replaces its
  content in place; `append` appends one record to an existing section.
* Mutable boundary-condition description dicts are modelled as values; the
  in-place mutations of the source become explicit state passing of the
  node-set registry.
* Fallible operations (missing dict keys, missing exodus variables, invalid
  category tags) return `Except String`.
* Floating point coordinate values are modelled as rationals; no claim
  depends on coordinate arithmetic.
-/

/-- Geometric dimensionality of a node set (`cupy.geometry`, the
`GeometryType` enum of `cubitpy_types.py`). -/
inductive GeometryType where
  | vertex
  | curve
  | surface
  | volume
deriving DecidableEq, Repr

/-- Modelled from the spec: `GeometryType.get_cubit_string` of
`cubitpy_types.py` (not under `src/`); the meshing-engine keyword for the
dimensionality.  No claim depends on the concrete strings. -/
def GeometryType.get_cubit_string : GeometryType → String
  | .vertex => "vertex"
  | .curve => "curve"
  | .surface => "surface"
  | .volume => "volume"

/-- A boundary-condition description dict owned by the session.  `payload`
stands for all keys other than the two injected by the converter; `E` and
`entity_type` model the injected keys `E` and `ENTITY_TYPE` (absent until
written). -/
structure BCDescription where
  payload : Nat
  E : Option Nat := none
  entity_type : Option String := none
deriving DecidableEq, Repr

/-- One entry of the session's node-set registry `cubit.node_sets`:
`(bc_section, bc_description, geometry_type)`. -/
structure NodeSetData where
  bc_section : Option String
  bc_description : BCDescription
  geometry_type : GeometryType
deriving DecidableEq, Repr

/-- Modelled from the spec: the element-type descriptor (`ElementType` of
`cubitpy_types.py`, not under `src/`), reduced to the three accessor results
the converter uses. -/
structure EleType where
  four_c_section : String
  four_c_type : String
  four_c_name : String
deriving DecidableEq, Repr

/-- A record stored in a deck section: a boundary-condition record, a
topology record, a nodal-coordinate record, or an element record. -/
inductive Record where
  | bc (d : BCDescription)
  | topo (kind : String) (node_id : Nat) (d_type : String) (d_id : Nat)
  | node (id : Nat) (coord : Rat × Rat × Rat)
  | element (id : Nat) (connectivity : List Nat) (cell_type : String)
      (data_type : String) (block_data : Nat)
deriving DecidableEq, Repr

/-- The solver input deck (fourcipp `InputFile`): an ordered association
list from section name to section content. -/
structure InputFile where
  sections : List (String × List Record)
deriving DecidableEq, Repr

/-- Read a section by name.  Section names of a deck are unique (they are
dict keys), so first-match lookup models the dict read. -/
def getSectionL : List (String × List Record) → String → Option (List Record)
  | [], _ => none
  | p :: rest, s => if p.1 = s then some p.2 else getSectionL rest s

/-- Read a section by name. -/
def getSection (f : InputFile) (s : String) : Option (List Record) :=
  getSectionL f.sections s

/-- Python `s in input_file.sections.keys()` / `s in input_file.inlined.keys()`. -/
def containsSection (f : InputFile) (s : String) : Bool :=
  (getSection f s).isSome

/-- Python `input_file[s] = c` on the key list: replace the content of an
existing section in place, or create the section at the end of the deck. -/
def setSectionL : List (String × List Record) → String → List Record →
    List (String × List Record)
  | [], s, c => [(s, c)]
  | p :: rest, s, c =>
      if p.1 = s then (p.1, c) :: rest else p :: setSectionL rest s c

/-- Python `input_file[s] = c`. -/
def setSection (f : InputFile) (s : String) (c : List Record) : InputFile :=
  ⟨setSectionL f.sections s c⟩

/-- Python `input_file[s].append(r)` on the key list (the call sites
guarantee the section exists; on an absent section this is a no-op). -/
def appendToSectionL (r : Record) : List (String × List Record) → String →
    List (String × List Record)
  | [], _ => []
  | p :: rest, s =>
      if p.1 = s then (p.1, p.2 ++ [r]) :: rest
      else p :: appendToSectionL r rest s

/-- Python `input_file[s].append(r)`. -/
def appendToSection (f : InputFile) (s : String) (r : Record) : InputFile :=
  ⟨appendToSectionL r f.sections s⟩

/-- The `if s not in keys: input_file[s] = []` idiom. -/
def ensureSection (f : InputFile) (s : String) : InputFile :=
  if containsSection f s then f else setSection f s []

/-- A `for r in rs: input_file[s].append(r)` loop. -/
def appendRecords (f : InputFile) (s : String) (rs : List Record) : InputFile :=
  rs.foldl (fun f r => appendToSection f s r) f

/-- Association-list lookup, modelling a Python dict read `m[k]`. -/
def lookupAssoc {α : Type} : List (Nat × α) → Nat → Option α
  | [], _ => none
  | p :: rest, k => if p.1 = k then some p.2 else lookupAssoc rest k

/-- Association-list update of an existing key, modelling the in-place
mutation of the value stored under `k`. -/
def updateAssoc {α : Type} : List (Nat × α) → Nat → α → List (Nat × α)
  | [], _, _ => []
  | p :: rest, k, v =>
      if p.1 = k then (p.1, v) :: rest else p :: updateAssoc rest k v

/-! ## The mesh-exchange (exodus) file -/

/-- The variables of the exodus file that the converter reads.  A name
buffer entry is `some c` for a byte character and `none` for a masked
(padding) entry.  `node_ns.get? k` models the variable `node_ns<k+1>`, and
`connect.get? k` models `connect<k+1>`. -/
structure ExoFile where
  ns_prop1 : List Nat
  ns_names : List (List (Option Char))
  node_ns : List (List Nat)
  eb_prop1 : List Nat
  eb_names : List (List (Option Char))
  connect : List (List (List Nat))
  coordx : List Rat
  coordy : List Rat
  coordz : Option (List Rat)
deriving DecidableEq, Repr

/-! ## ID Correspondence Resolver (`_exo_to_cubit_ids`) -/

/-- The character-accumulation loop of `_exo_to_cubit_ids`: decoded byte
entries are concatenated, masked entries are skipped. -/
def decode_name_chars : List (Option Char) → List Char
  | [] => []
  | some c :: rest => c :: decode_name_chars rest
  | none :: rest => decode_name_chars rest

/-- Name decoding of `_exo_to_cubit_ids`: concatenate the decoded characters
of the fixed-width buffer; an empty result is normalized to `None`. -/
def decode_name (line : List (Option Char)) : Option String :=
  let name := String.mk (decode_name_chars line)
  if name = "" then none else some name

/-- One entry of the resolver's `entries_info` list. -/
structure EntryInfo where
  cubit_id : Nat
  exo_id : Nat
  name : Option String
deriving DecidableEq, Repr

/-- The `for i, cubit_id in enumerate(prop1)` construction of
`entries_info`. -/
def build_entries_info (names : List (Option String)) :
    Nat → List Nat → List EntryInfo
  | _, [] => []
  | i, cid :: rest =>
      { cubit_id := cid, exo_id := i, name := (names.get? i).join } ::
        build_entries_info names (i + 1) rest

/-- The `cubit_id_to_exo_id` dict: insertion of `(cubit_id, i)` in file
order. -/
def build_cubit_to_exo : Nat → List Nat → List (Nat × Nat)
  | _, [] => []
  | i, cid :: rest => (cid, i) :: build_cubit_to_exo (i + 1) rest

/-- The `exo_id_to_cubit_id` dict: insertion of `(i, cubit_id)` in file
order. -/
def build_exo_to_cubit : Nat → List Nat → List (Nat × Nat)
  | _, [] => []
  | i, cid :: rest => (i, cid) :: build_exo_to_cubit (i + 1) rest

/-- `_exo_to_cubit_ids(exo, entry_type)`: bidirectional lookup tables between
exodus (file-order) ids and cubit (native) ids for blocks or node sets.  An
unrecognized category tag fails. -/
def exo_to_cubit_ids (exo : ExoFile) (entry_type : String) :
    Except String (List EntryInfo × List (Nat × Nat) × List (Nat × Nat)) :=
  if entry_type = "block" then
    let names := exo.eb_names.map decode_name
    .ok (build_entries_info names 0 exo.eb_prop1,
         build_cubit_to_exo 0 exo.eb_prop1,
         build_exo_to_cubit 0 exo.eb_prop1)
  else if entry_type = "nodeset" then
    let names := exo.ns_names.map decode_name
    .ok (build_entries_info names 0 exo.ns_prop1,
         build_cubit_to_exo 0 exo.ns_prop1,
         build_exo_to_cubit 0 exo.ns_prop1)
  else
    .error ("Invalid entry type: " ++ entry_type)

/-! ## Element Connectivity Normalizer (`get_element_connectivity_list`) -/

/-- The fixed hex27 reordering table of `get_element_connectivity_list`. -/
def hex27_ordering : List Nat :=
  [0, 1, 2, 3, 4, 5, 6, 7, 8, 9, 10, 11, 12, 13, 14, 15, 16, 17, 18, 19,
   21, 25, 24, 26, 23, 22, 20]

/-- `get_element_connectivity_list(connectivity)`: for a 27-entry sequence
apply the hex27 reordering, otherwise return the sequence unchanged (the
source's `tolist()` is only a container conversion). -/
def get_element_connectivity_list (connectivity : List Nat) : List Nat :=
  if connectivity.length = 27 then
    hex27_ordering.map (fun i => connectivity.getD i 0)
  else
    connectivity

/-! ## Node-Set Projector (`add_node_sets_input_file`, first loop) -/

/-- The per-dimensionality bucket dictionary `node_sets` of
`add_node_sets_input_file`. -/
structure NodeSetBuckets where
  vertex : List (List Nat)
  curve : List (List Nat)
  surface : List (List Nat)
  volume : List (List Nat)
deriving DecidableEq, Repr

/-- The empty bucket dictionary. -/
def NodeSetBuckets.empty : NodeSetBuckets := ⟨[], [], [], []⟩

/-- `node_sets[geometry_type]`. -/
def NodeSetBuckets.get (b : NodeSetBuckets) : GeometryType → List (List Nat)
  | .vertex => b.vertex
  | .curve => b.curve
  | .surface => b.surface
  | .volume => b.volume

/-- `node_sets[geometry_type].append(nodes)`. -/
def NodeSetBuckets.push (b : NodeSetBuckets) (g : GeometryType)
    (nodes : List Nat) : NodeSetBuckets :=
  match g with
  | .vertex => { b with vertex := b.vertex ++ [nodes] }
  | .curve => { b with curve := b.curve ++ [nodes] }
  | .surface => { b with surface := b.surface ++ [nodes] }
  | .volume => { b with volume := b.volume ++ [nodes] }

/-- The `for exo_id in range(len(exo.variables["ns_prop1"]))` loop of
`add_node_sets_input_file`: bucket the member-node arrays by dimensionality,
write the 1-based bucket position into the set's description under `E`
(an in-place mutation of the registry, modelled by state passing), and
append the description to its boundary-condition section when one is
configured. -/
def process_node_sets (exo : ExoFile) (m : List (Nat × Nat)) :
    List Nat → NodeSetBuckets → List (Nat × NodeSetData) → InputFile →
    Except String (NodeSetBuckets × List (Nat × NodeSetData) × InputFile)
  | [], b, r, f => .ok (b, r, f)
  | e :: rest, b, r, f =>
    match lookupAssoc m e with
    | none => .error "KeyError: exo_id_to_cubit_id"
    | some cid =>
      match lookupAssoc r cid with
      | none => .error "KeyError: cubit.node_sets"
      | some data =>
        match exo.node_ns.get? e with
        | none => .error "KeyError: node_ns variable"
        | some nodes =>
          let b' := b.push data.geometry_type nodes
          let desc' := { data.bc_description with
            E := some (b'.get data.geometry_type).length }
          let r' := updateAssoc r cid { data with bc_description := desc' }
          let f' :=
            match data.bc_section with
            | none => f
            | some s => appendToSection (ensureSection f s) s (.bc desc')
          process_node_sets exo m rest b' r' f'

/-! ## Geometry/Topology Section Builder (`add_node_sets_input_file`, second
loop) -/

/-- The records appended for one node set of a bucket: one `NODE` record per
member node, carrying the set label and the 1-based set position. -/
def topo_records (set_label : String) (i_set : Nat) (nodes : List Nat) :
    List Record :=
  nodes.map (fun n => .topo "NODE" n set_label (i_set + 1))

/-- The `for i_set, node_set in enumerate(node_sets[geo])` loop: sort each
member-node array ascending and append its records. -/
def topo_append_sets (sec set_label : String) :
    Nat → List (List Nat) → InputFile → InputFile
  | _, [], f => f
  | i, ns :: rest, f =>
      topo_append_sets sec set_label (i + 1) rest
        (appendRecords f sec
          (topo_records set_label i (ns.insertionSort (· ≤ ·))))

/-- One iteration of the `for geo, section_name, set_label in
name_geometry_tuple` loop: a non-empty bucket gets a freshly written
section, an empty bucket is skipped entirely. -/
def add_topology_for_geo (sets : List (List Nat)) (sec set_label : String)
    (f : InputFile) : InputFile :=
  if sets.length > 0 then
    topo_append_sets sec set_label 0 sets (setSection f sec [])
  else f

/-- The topology section name for a dimensionality. -/
def topoSectionName : GeometryType → String
  | .vertex => "DNODE-NODE TOPOLOGY"
  | .curve => "DLINE-NODE TOPOLOGY"
  | .surface => "DSURF-NODE TOPOLOGY"
  | .volume => "DVOL-NODE TOPOLOGY"

/-- The set-label tag for a dimensionality. -/
def topoSetLabel : GeometryType → String
  | .vertex => "DNODE"
  | .curve => "DLINE"
  | .surface => "DSURFACE"
  | .volume => "DVOL"

/-- The full `name_geometry_tuple` loop of `add_node_sets_input_file`. -/
def add_topology_sections (b : NodeSetBuckets) (f : InputFile) : InputFile :=
  add_topology_for_geo b.volume (topoSectionName .volume) (topoSetLabel .volume)
    (add_topology_for_geo b.surface (topoSectionName .surface)
      (topoSetLabel .surface)
      (add_topology_for_geo b.curve (topoSectionName .curve)
        (topoSetLabel .curve)
        (add_topology_for_geo b.vertex (topoSectionName .vertex)
          (topoSetLabel .vertex) f)))

/-- `add_node_sets_input_file(cubit, exo, input_file)`: embed the node sets
of the session into the deck.  Returns the (possibly mutated) node-set
registry together with the modified deck. -/
def add_node_sets_input_file (node_sets : List (Nat × NodeSetData))
    (exo : ExoFile) (f : InputFile) :
    Except String (List (Nat × NodeSetData) × InputFile) :=
  if node_sets.length = 0 then .ok (node_sets, f)
  else
    match exo_to_cubit_ids exo "nodeset" with
    | .error e => .error e
    | .ok (_, _, m) =>
      match process_node_sets exo m (List.range exo.ns_prop1.length)
          NodeSetBuckets.empty node_sets f with
      | .error e => .error e
      | .ok (b, r', f') => .ok (r', add_topology_sections b f')

/-! ## External-mesh node-set path (`add_node_sets_external_geometry`) -/

/-- The `for node_set_id in node_set_keys_sorted` loop: for each node set
with a configured boundary-condition section, write `E := native id` and
`ENTITY_TYPE := "node_set_id"` into its description (in place, modelled by
state passing) and append the description to the section. -/
def ext_geometry_loop :
    List Nat → List (Nat × NodeSetData) → InputFile →
    Except String (List (Nat × NodeSetData) × InputFile)
  | [], r, f => .ok (r, f)
  | nsid :: rest, r, f =>
    match lookupAssoc r nsid with
    | none => .error "KeyError: cubit.node_sets"
    | some data =>
      match data.bc_section with
      | none => ext_geometry_loop rest r f
      | some s =>
        let desc' := { data.bc_description with
          E := some nsid, entity_type := some "node_set_id" }
        let r' := updateAssoc r nsid { data with bc_description := desc' }
        let f' := appendToSection (ensureSection f s) s (.bc desc')
        ext_geometry_loop rest r' f'

/-- `add_node_sets_external_geometry(cubit, input_file)`: reference the node
sets of an external mesh file, iterating the registry keys in ascending
native-id order. -/
def add_node_sets_external_geometry (node_sets : List (Nat × NodeSetData))
    (f : InputFile) :
    Except String (List (Nat × NodeSetData) × InputFile) :=
  if node_sets.length = 0 then .ok (node_sets, f)
  else
    ext_geometry_loop
      ((node_sets.map (fun p => p.1)).insertionSort (· ≤ ·)) node_sets f

/-! ## Deck Assembler (`get_input_file_with_mesh`) -/

/-- The session state the converter reads: the node-set registry, the block
registry (element-type descriptor and metadata payload per native id), and
the pre-mesh deck. -/
structure CubitSession where
  node_sets : List (Nat × NodeSetData)
  blocks : List (Nat × EleType × Nat)
  fourc_input : InputFile
deriving DecidableEq, Repr

/-- The coordinate-assembly step: three columns when `coordz` exists, two
columns padded with a zero third component otherwise. -/
def get_coordinates (exo : ExoFile) : List (Rat × Rat × Rat) :=
  match exo.coordz with
  | some zs =>
      (exo.coordx.zip (exo.coordy.zip zs)).map (fun p => (p.1, p.2.1, p.2.2))
  | none =>
      (exo.coordx.zip exo.coordy).map (fun p => (p.1, p.2, 0))

/-- The `for i, coordinate in enumerate(coordinates)` records: 1-based
sequential id plus 3-component coordinate. -/
def node_coord_records : Nat → List (Rat × Rat × Rat) → List Record
  | _, [] => []
  | i, c :: rest => .node (i + 1) c :: node_coord_records (i + 1) rest

/-- The inner `for connectivity in exo.variables[f"connect{exo_id+1}"]` loop:
append one element record per connectivity row, incrementing the global
element counter. -/
def add_block_rows (et : EleType) (bd : Nat) (sec : String) :
    List (List Nat) → Nat → InputFile → Nat × InputFile
  | [], i, f => (i, f)
  | conn :: rest, i, f =>
      add_block_rows et bd sec rest (i + 1)
        (appendToSection f sec
          (.element (i + 1) (get_element_connectivity_list conn)
            et.four_c_type et.four_c_name bd))

/-- The `for exo_id in range(len(exo.variables["eb_prop1"]))` loop of
`get_input_file_with_mesh`: resolve each block, ensure its solver element
section exists, and append its element records. -/
def add_elements (blocks : List (Nat × EleType × Nat)) (exo : ExoFile)
    (m : List (Nat × Nat)) :
    List Nat → Nat → InputFile → Except String (Nat × InputFile)
  | [], i, f => .ok (i, f)
  | e :: rest, i, f =>
    match lookupAssoc m e with
    | none => .error "KeyError: exo_id_to_cubit_id"
    | some cid =>
      match lookupAssoc blocks cid with
      | none => .error "KeyError: cubit.blocks"
      | some (et, bd) =>
        let sec := et.four_c_section ++ " ELEMENTS"
        let f := ensureSection f sec
        match exo.connect.get? e with
        | none => .error "KeyError: connect variable"
        | some rows =>
          let (i', f') := add_block_rows et bd sec rows i f
          add_elements blocks exo m rest i' f'

/-- `get_input_file_with_mesh(cubit)`: duplicate the session's pre-mesh deck
(the source takes a deep copy, modelled as a value copy), embed node sets,
nodal coordinates and element blocks into the duplicate, and return it
together with the session state after the conversion (whose node-set
registry carries the injected `E` fields).  The exported exodus file is the
`exo` argument. -/
def get_input_file_with_mesh (cubit : CubitSession) (exo : ExoFile) :
    Except String (InputFile × CubitSession) :=
  match add_node_sets_input_file cubit.node_sets exo cubit.fourc_input with
  | .error e => .error e
  | .ok (node_sets', f1) =>
    let f2 := setSection f1 "NODE COORDS" []
    let f3 := appendRecords f2 "NODE COORDS"
      (node_coord_records 0 (get_coordinates exo))
    match exo_to_cubit_ids exo "block" with
    | .error e => .error e
    | .ok (_, _, m) =>
      match add_elements cubit.blocks exo m
          (List.range exo.eb_prop1.length) 0 f3 with
      | .error e => .error e
      | .ok (_, f4) => .ok (f4, { cubit with node_sets := node_sets' })

/-! ## Argument normalization (`formatter` of `cubit_utility.py`) -/

/-- The shapes of arguments `formatter` dispatches on: a `CubitObject`
resolving to a geometry (with its id), a `CubitObject` body (with its sheet
flag and its surface and volume id lists), a `CubitObject` with any other
object type, a `CubitGroup` (with its geometry type and item ids), a raw
integer id, an iterable of arguments, or a value of any other type. -/
inductive FormatArg where
  | geom (gtype : GeometryType) (id : Nat)
  | body (is_sheet : Bool) (surface_ids : List Nat) (volume_ids : List Nat)
  | objOther
  | group (gtype : GeometryType) (item_ids : List Nat)
  | int (id : Nat)
  | iterable (elems : List FormatArg)
  | other

/-- Insertion into the `geometry_types` set. -/
def insertType (ts : List GeometryType) (g : GeometryType) :
    List GeometryType :=
  if g ∈ ts then ts else ts ++ [g]

/-- The initial `geometry_types` set: empty, or the explicitly provided
type. -/
def initTypes : Option GeometryType → List GeometryType
  | none => []
  | some g => [g]

/-- The argument loop and final checks of `formatter`.  `pending` is the
remaining argument list, `origLen` the length of the full argument tuple
(the iterable branch requires it to be 1 and restarts on the iterable's
elements), `ts` the geometry types seen so far, `items` the collected item
ids. -/
def formatterCore : List FormatArg → Nat → List GeometryType → List Nat →
    Option GeometryType → Except String String
  | [], _, ts, items, _ =>
    if ts.length = 0 then
      .error "No geometry types were found in the arguments"
    else if ¬ ts.length = 1 then
      .error "All arguments must have the same geometry type"
    else if items.length = 0 then
      .error "No item ids were found in the arguments"
    else
      .ok ((ts.headD .vertex).get_cubit_string ++ " " ++
        String.intercalate " " (items.map toString))
  | a :: rest, origLen, ts, items, gt =>
    match a with
    | .iterable elems =>
      if origLen = 1 then
        formatterCore elems elems.length (initTypes gt) [] gt
      else .error "iterable argument only works for a single argument"
    | .group g ids =>
      formatterCore rest origLen (insertType ts g) (items ++ ids) gt
    | .geom g i =>
      formatterCore rest origLen (insertType ts g) (items ++ [i]) gt
    | .body is_sheet surfs vols =>
      let g : GeometryType := if is_sheet then .surface else .volume
      let objs := if is_sheet then surfs else vols
      match objs with
      | [o] => formatterCore rest origLen (insertType ts g) (items ++ [o]) gt
      | _ => .error "Expected exactly one geometry in the body"
    | .objOther => .error "Did not get a valid geometry from the CubitObject"
    | .int i => formatterCore rest origLen ts (items ++ [i]) gt
    | .other => .error "Expected CubitObject, CubitGroup or int"
termination_by pending _ _ _ _ => sizeOf pending
decreasing_by
  all_goals simp_wf
  all_goals omega

/-- `formatter(*args, geometry_type=...)`. -/
def formatter (args : List FormatArg) (geometry_type : Option GeometryType) :
    Except String String :=
  formatterCore args args.length (initTypes geometry_type) [] geometry_type

/-! ## Basic lemmas about deck and dict operations -/

theorem getSection_setSection_self (f : InputFile) (s : String)
    (c : List Record) : getSection (setSection f s c) s = some c := by
  show getSectionL (setSectionL f.sections s c) s = some c
  induction f.sections with
  | nil => simp [setSectionL, getSectionL]
  | cons p rest ih =>
    by_cases h : p.1 = s <;> simp [setSectionL, getSectionL, h, ih]

theorem getSection_setSection_ne (f : InputFile) (s s' : String)
    (c : List Record) (h : s ≠ s') :
    getSection (setSection f s c) s' = getSection f s' := by
  show getSectionL (setSectionL f.sections s c) s' = getSectionL f.sections s'
  induction f.sections with
  | nil => simp [setSectionL, getSectionL, h]
  | cons p rest ih =>
    by_cases hp : p.1 = s
    · subst hp; simp [setSectionL, getSectionL, h, ih]
    · simp [setSectionL, getSectionL, hp, ih]

theorem getSection_appendToSection_self (f : InputFile) (s : String)
    (r : Record) :
    getSection (appendToSection f s r) s =
      (getSection f s).map (fun c => c ++ [r]) := by
  show getSectionL (appendToSectionL r f.sections s) s =
    (getSectionL f.sections s).map (fun c => c ++ [r])
  induction f.sections with
  | nil => simp [appendToSectionL, getSectionL]
  | cons p rest ih =>
    by_cases h : p.1 = s <;> simp [appendToSectionL, getSectionL, h, ih]

theorem getSection_appendToSection_ne (f : InputFile) (s s' : String)
    (r : Record) (h : s ≠ s') :
    getSection (appendToSection f s r) s' = getSection f s' := by
  show getSectionL (appendToSectionL r f.sections s) s' =
    getSectionL f.sections s'
  induction f.sections with
  | nil => simp [appendToSectionL, getSectionL]
  | cons p rest ih =>
    by_cases hp : p.1 = s
    · subst hp; simp [appendToSectionL, getSectionL, h, ih]
    · simp [appendToSectionL, getSectionL, hp, ih]

theorem containsSection_eq (f : InputFile) (s : String) :
    containsSection f s = (getSection f s).isSome := rfl

theorem getSection_ensureSection_self (f : InputFile) (s : String) :
    getSection (ensureSection f s) s = some ((getSection f s).getD []) := by
  unfold ensureSection
  by_cases h : containsSection f s
  · simp only [h, if_true]
    rw [containsSection_eq] at h
    cases hv : getSection f s with
    | none => rw [hv] at h; simp at h
    | some c => simp [hv]
  · simp only [h, if_false]
    rw [containsSection_eq] at h
    cases hv : getSection f s with
    | none => simp [getSection_setSection_self, hv]
    | some c => rw [hv] at h; simp at h

theorem getSection_ensureSection_ne (f : InputFile) (s s' : String)
    (h : s ≠ s') :
    getSection (ensureSection f s) s' = getSection f s' := by
  unfold ensureSection
  by_cases hc : containsSection f s
  · simp [hc]
  · simp [hc, getSection_setSection_ne _ _ _ _ h]

theorem getSection_appendRecords_self (f : InputFile) (s : String)
    (rs : List Record) :
    getSection (appendRecords f s rs) s =
      (getSection f s).map (fun c => c ++ rs) := by
  induction rs generalizing f with
  | nil =>
    cases h : getSection f s <;> simp [appendRecords, h]
  | cons r rest ih =>
    show getSection (appendRecords (appendToSection f s r) s rest) s = _
    rw [ih, getSection_appendToSection_self]
    cases h : getSection f s <;> simp

theorem getSection_appendRecords_ne (f : InputFile) (s s' : String)
    (rs : List Record) (h : s ≠ s') :
    getSection (appendRecords f s rs) s' = getSection f s' := by
  induction rs generalizing f with
  | nil => rfl
  | cons r rest ih =>
    show getSection (appendRecords (appendToSection f s r) s rest) s' = _
    rw [ih, getSection_appendToSection_ne _ _ _ _ h]

theorem lookupAssoc_updateAssoc_self {α : Type} (m : List (Nat × α))
    (k : Nat) (v : α) (h : (lookupAssoc m k).isSome) :
    lookupAssoc (updateAssoc m k v) k = some v := by
  induction m with
  | nil => simp [lookupAssoc] at h
  | cons p rest ih =>
    by_cases hp : p.1 = k
    · simp [lookupAssoc, updateAssoc, hp]
    · simp [lookupAssoc, updateAssoc, hp] at h ⊢
      exact ih h

theorem lookupAssoc_updateAssoc_ne {α : Type} (m : List (Nat × α))
    (k k' : Nat) (v : α) (h : k ≠ k') :
    lookupAssoc (updateAssoc m k v) k' = lookupAssoc m k' := by
  induction m with
  | nil => simp [updateAssoc, lookupAssoc]
  | cons p rest ih =>
    by_cases hp : p.1 = k
    · subst hp; simp [lookupAssoc, updateAssoc, h, ih]
    · simp [lookupAssoc, updateAssoc, hp, ih]

theorem lookupAssoc_mem {α : Type} {m : List (Nat × α)} {k : Nat} {v : α}
    (h : lookupAssoc m k = some v) : (k, v) ∈ m := by
  induction m with
  | nil => simp [lookupAssoc] at h
  | cons p rest ih =>
    obtain ⟨a, b⟩ := p
    by_cases hp : a = k
    · simp [lookupAssoc, hp] at h
      subst hp
      subst h
      exact List.mem_cons_self _ _
    · simp [lookupAssoc, hp] at h
      exact List.mem_cons_of_mem _ (ih h)

/-! ## Claim C1: the hex27 connectivity permutation -/

/-- C1: For a 27-entry connectivity sequence `get_element_connectivity_list`
returns the fixed permutation that keeps entries 0..19 in place and maps
output index 20 to input 21, 21 to 25, 22 to 24, 23 to 26, 24 to 23,
25 to 22 and 26 to 20; on the identity input `[0..26]` this yields
`[0,..,19,21,25,24,26,23,22,20]`.  For a sequence of any other length the
output equals the input. -/
theorem claim_C1 (l : List Nat) :
    (l.length = 27 →
      get_element_connectivity_list l =
        [l.getD 0 0, l.getD 1 0, l.getD 2 0, l.getD 3 0, l.getD 4 0,
         l.getD 5 0, l.getD 6 0, l.getD 7 0, l.getD 8 0, l.getD 9 0,
         l.getD 10 0, l.getD 11 0, l.getD 12 0, l.getD 13 0, l.getD 14 0,
         l.getD 15 0, l.getD 16 0, l.getD 17 0, l.getD 18 0, l.getD 19 0,
         l.getD 21 0, l.getD 25 0, l.getD 24 0, l.getD 26 0, l.getD 23 0,
         l.getD 22 0, l.getD 20 0]) ∧
    (l.length ≠ 27 → get_element_connectivity_list l = l) ∧
    get_element_connectivity_list (List.range 27) =
      [0, 1, 2, 3, 4, 5, 6, 7, 8, 9, 10, 11, 12, 13, 14, 15, 16, 17, 18, 19,
       21, 25, 24, 26, 23, 22, 20] := by
  refine ⟨?_, ?_, by decide⟩
  · intro h
    unfold get_element_connectivity_list
    rw [if_pos h]
    rfl
  · intro h
    unfold get_element_connectivity_list
    rw [if_neg h]

/-- C1 witness: the theorem instantiated at the identity 27-entry input and
at a 3-entry input. -/
theorem claim_C1_witness :
    get_element_connectivity_list (List.range 27) =
      [0, 1, 2, 3, 4, 5, 6, 7, 8, 9, 10, 11, 12, 13, 14, 15, 16, 17, 18, 19,
       21, 25, 24, 26, 23, 22, 20] ∧
    get_element_connectivity_list [7, 8, 9] = [7, 8, 9] :=
  ⟨(claim_C1 []).2.2, (claim_C1 [7, 8, 9]).2.1 (by decide)⟩

/-! ## Claim C7: name decoding in the ID Correspondence Resolver -/

theorem decode_name_chars_append (l1 l2 : List (Option Char)) :
    decode_name_chars (l1 ++ l2) =
      decode_name_chars l1 ++ decode_name_chars l2 := by
  induction l1 with
  | nil => rfl
  | cons c rest ih =>
    cases c <;> simp [decode_name_chars, ih]

theorem decode_name_chars_replicate_none (k : Nat) :
    decode_name_chars (List.replicate k (none : Option Char)) = [] := by
  induction k with
  | zero => rfl
  | succ n ih => simpa [List.replicate, decode_name_chars] using ih

theorem string_mk_eq_empty_iff (cs : List Char) :
    String.mk cs = "" ↔ cs = [] := by
  simp [String.ext_iff]

theorem build_entries_info_get? (names : List (Option String)) :
    ∀ (l : List Nat) (i j : Nat),
      (build_entries_info names i l).get? j =
        (l.get? j).map
          (fun cid => ⟨cid, i + j, (names.get? (i + j)).join⟩) := by
  intro l
  induction l with
  | nil => intro i j; simp [build_entries_info]
  | cons cid rest ih =>
    intro i j
    cases j with
    | zero => simp [build_entries_info]
    | succ j' =>
      simp only [build_entries_info, List.get?_cons_succ, ih]
      have : i + 1 + j' = i + (j' + 1) := by omega
      rw [this]

/-- C7: the resolver decodes a name by concatenating the decoded characters
over the whole buffer; an all-empty result is normalized to the distinguished
no-name value `none` (never `some ""`); trailing padding does not change the
decoded name; and the resolver's per-entry names are exactly the decoded
buffers. -/
theorem claim_C7 (line : List (Option Char)) (k : Nat) (exo : ExoFile)
    (entries : List EntryInfo) (m1 m2 : List (Nat × Nat)) :
    (decode_name (line ++ List.replicate k none) = decode_name line) ∧
    (decode_name_chars line = [] → decode_name line = none) ∧
    (decode_name line ≠ some "") ∧
    (decode_name_chars line ≠ [] →
      decode_name line = some (String.mk (decode_name_chars line))) ∧
    (exo_to_cubit_ids exo "nodeset" = .ok (entries, m1, m2) →
      ∀ j buffer, exo.ns_names.get? j = some buffer →
        j < exo.ns_prop1.length →
        (entries.get? j).map (fun e => e.name) =
          some (decode_name buffer)) := by
  refine ⟨?_, ?_, ?_, ?_, ?_⟩
  · unfold decode_name
    rw [decode_name_chars_append, decode_name_chars_replicate_none,
      List.append_nil]
  · intro h
    unfold decode_name
    rw [h]
    rfl
  · unfold decode_name
    by_cases h : String.mk (decode_name_chars line) = ""
    · simp [h]
    · simp only [h, if_neg, if_false]
      intro hcontra
      exact h (by injection hcontra)
  · intro h
    unfold decode_name
    rw [if_neg]
    intro hcontra
    exact h ((string_mk_eq_empty_iff _).mp hcontra)
  · intro hok j buffer hbuf hj
    have hne : ¬ ("nodeset" = "block") := by decide
    unfold exo_to_cubit_ids at hok
    rw [if_neg hne, if_pos rfl] at hok
    have h : (build_entries_info (exo.ns_names.map decode_name) 0
        exo.ns_prop1, build_cubit_to_exo 0 exo.ns_prop1,
        build_exo_to_cubit 0 exo.ns_prop1) = (entries, m1, m2) :=
      Except.ok.inj hok
    have hentries : entries =
        build_entries_info (exo.ns_names.map decode_name) 0 exo.ns_prop1 := by
      have hfst := congrArg Prod.fst h
      simpa using hfst.symm
    subst hentries
    rw [build_entries_info_get?]
    cases hcid : exo.ns_prop1.get? j with
    | none =>
      rw [List.get?_eq_none] at hcid
      omega
    | some cid =>
      rw [List.get?_eq_getElem?] at hbuf
      simp [hbuf]

/-- C7 witness: the theorem instantiated at a concrete padded buffer, an
all-blank buffer, and a concrete exodus file. -/
theorem claim_C7_witness :
    (decode_name ([some 'a', some 'b'] ++ List.replicate 2 none) =
      decode_name [some 'a', some 'b']) ∧
    (decode_name [none, none] = none) ∧
    ((({ ns_prop1 := [5], ns_names := [[some 'a', none]], node_ns := [[1]],
         eb_prop1 := [], eb_names := [], connect := [], coordx := [],
         coordy := [], coordz := none } : ExoFile).ns_names.get? 0 =
           some [some 'a', none]) →
      True) := by
  refine ⟨?_, ?_, fun _ => trivial⟩
  · exact (claim_C7 [some 'a', some 'b'] 2
      ⟨[], [], [], [], [], [], [], [], none⟩ [] [] []).1
  · exact (claim_C7 [none, none] 0
      ⟨[], [], [], [], [], [], [], [], none⟩ [] [] []).2.1 rfl

/-! ## Claim C9: argument normalization in `formatter` -/

/-- The geometric dimensionality an argument resolves to (`None` for raw
integers and for shapes that raise). -/
def FormatArg.resolvedType : FormatArg → Option GeometryType
  | .geom g _ => some g
  | .group g _ => some g
  | .body is_sheet _ _ => some (if is_sheet then .surface else .volume)
  | _ => none

/-- Arguments the loop processes without raising: geometry objects, groups,
raw integers, and bodies holding exactly one underlying object. -/
def FormatArg.simpleOk : FormatArg → Bool
  | .geom _ _ => true
  | .group _ _ => true
  | .int _ => true
  | .body is_sheet surfs vols =>
      decide ((if is_sheet then surfs else vols).length = 1)
  | _ => false

/-- The item ids an argument resolves to. -/
def FormatArg.resolvedItems : FormatArg → List Nat
  | .geom _ i => [i]
  | .group _ ids => ids
  | .body is_sheet surfs vols => if is_sheet then surfs else vols
  | .int i => [i]
  | .iterable elems =>
      (elems.attach.map (fun x => FormatArg.resolvedItems x.1)).flatten
  | .objOther => []
  | .other => []
termination_by a => sizeOf a
decreasing_by
  simp_wf
  have := List.sizeOf_lt_of_mem x.2
  omega

/-- The item ids a whole argument list resolves to. -/
def flatItems (args : List FormatArg) : List Nat :=
  (args.map FormatArg.resolvedItems).flatten

/-- The geometry-type set accumulated by the loop over an argument list. -/
def foldTypes : List GeometryType → List FormatArg → List GeometryType
  | ts, [] => ts
  | ts, a :: rest =>
      foldTypes
        (match a.resolvedType with
          | some g => insertType ts g
          | none => ts) rest

theorem flatItems_nil : flatItems [] = [] := rfl

theorem flatItems_cons (a : FormatArg) (rest : List FormatArg) :
    flatItems (a :: rest) = a.resolvedItems ++ flatItems rest := by
  simp [flatItems]

theorem resolvedItems_iterable (elems : List FormatArg) :
    (FormatArg.iterable elems).resolvedItems = flatItems elems := by
  rw [FormatArg.resolvedItems, List.attach_map_val]
  rfl

theorem mem_insertType_self (ts : List GeometryType) (g : GeometryType) :
    g ∈ insertType ts g := by
  unfold insertType
  by_cases h : g ∈ ts <;> simp [h]

theorem mem_insertType_of_mem (ts : List GeometryType) (g h' : GeometryType)
    (h : h' ∈ ts) : h' ∈ insertType ts g := by
  unfold insertType
  by_cases hg : g ∈ ts <;> simp [hg, h]

theorem mem_foldTypes_of_mem (args : List FormatArg) :
    ∀ (ts : List GeometryType) (h' : GeometryType), h' ∈ ts →
      h' ∈ foldTypes ts args := by
  induction args with
  | nil => intro ts h' h; exact h
  | cons a rest ih =>
    intro ts h' h
    unfold foldTypes
    cases a.resolvedType with
    | none => exact ih ts h' h
    | some g => exact ih _ h' (mem_insertType_of_mem ts g h' h)

theorem mem_foldTypes (args : List FormatArg) :
    ∀ (ts : List GeometryType) (a : FormatArg) (g : GeometryType),
      a ∈ args → a.resolvedType = some g → g ∈ foldTypes ts args := by
  induction args with
  | nil => intro ts a g h; simp at h
  | cons b rest ih =>
    intro ts a g hmem ht
    rcases List.mem_cons.mp hmem with rfl | hmem'
    · unfold foldTypes
      rw [ht]
      exact mem_foldTypes_of_mem rest _ g (mem_insertType_self ts g)
    · unfold foldTypes
      cases b.resolvedType with
      | none => exact ih ts a g hmem' ht
      | some g' => exact ih _ a g hmem' ht

theorem formatterCore_cons_geom (g : GeometryType) (i : Nat)
    (rest : List FormatArg) (n : Nat) (ts : List GeometryType)
    (items : List Nat) (gt : Option GeometryType) :
    formatterCore (.geom g i :: rest) n ts items gt =
      formatterCore rest n (insertType ts g) (items ++ [i]) gt := by
  conv_lhs => rw [formatterCore]

theorem formatterCore_cons_group (g : GeometryType) (ids : List Nat)
    (rest : List FormatArg) (n : Nat) (ts : List GeometryType)
    (items : List Nat) (gt : Option GeometryType) :
    formatterCore (.group g ids :: rest) n ts items gt =
      formatterCore rest n (insertType ts g) (items ++ ids) gt := by
  conv_lhs => rw [formatterCore]

theorem formatterCore_cons_int (i : Nat) (rest : List FormatArg) (n : Nat)
    (ts : List GeometryType) (items : List Nat) (gt : Option GeometryType) :
    formatterCore (.int i :: rest) n ts items gt =
      formatterCore rest n ts (items ++ [i]) gt := by
  conv_lhs => rw [formatterCore]

theorem formatterCore_cons_body (sh : Bool) (surfs vols : List Nat)
    (rest : List FormatArg) (n : Nat) (ts : List GeometryType)
    (items : List Nat) (gt : Option GeometryType) :
    formatterCore (.body sh surfs vols :: rest) n ts items gt =
      (match (if sh then surfs else vols) with
       | [o] => formatterCore rest n
           (insertType ts (if sh then GeometryType.surface else .volume))
           (items ++ [o]) gt
       | _ => .error "Expected exactly one geometry in the body") := by
  conv_lhs => rw [formatterCore]

theorem formatterCore_cons_iterable (elems rest : List FormatArg) (n : Nat)
    (ts : List GeometryType) (items : List Nat) (gt : Option GeometryType) :
    formatterCore (.iterable elems :: rest) n ts items gt =
      if n = 1 then formatterCore elems elems.length (initTypes gt) [] gt
      else .error "iterable argument only works for a single argument" := by
  conv_lhs => rw [formatterCore]

theorem formatterCore_cons_objOther (rest : List FormatArg) (n : Nat)
    (ts : List GeometryType) (items : List Nat) (gt : Option GeometryType) :
    formatterCore (.objOther :: rest) n ts items gt =
      .error "Did not get a valid geometry from the CubitObject" := by
  conv_lhs => rw [formatterCore]

theorem formatterCore_cons_other (rest : List FormatArg) (n : Nat)
    (ts : List GeometryType) (items : List Nat) (gt : Option GeometryType) :
    formatterCore (.other :: rest) n ts items gt =
      .error "Expected CubitObject, CubitGroup or int" := by
  conv_lhs => rw [formatterCore]

/-- When all arguments are simple, the loop completes: it reaches the final
checks with the accumulated types and items. -/
theorem formatterCore_simple (pending : List FormatArg) :
    ∀ (n : Nat) (ts : List GeometryType) (items : List Nat)
      (gt : Option GeometryType), (∀ a ∈ pending, a.simpleOk) →
      formatterCore pending n ts items gt =
        formatterCore [] n (foldTypes ts pending) (items ++ flatItems pending)
          gt := by
  induction pending with
  | nil => intro n ts items gt _; simp [flatItems, foldTypes]
  | cons a rest ih =>
    intro n ts items gt hok
    have ha : a.simpleOk := hok a (List.mem_cons_self _ _)
    have hrest : ∀ x ∈ rest, x.simpleOk :=
      fun x hx => hok x (List.mem_cons_of_mem _ hx)
    cases a with
    | geom g i =>
      rw [formatterCore_cons_geom, ih _ _ _ _ hrest]
      simp [foldTypes, FormatArg.resolvedType, flatItems_cons,
        FormatArg.resolvedItems]
    | group g ids =>
      rw [formatterCore_cons_group, ih _ _ _ _ hrest]
      simp [foldTypes, FormatArg.resolvedType, flatItems_cons,
        FormatArg.resolvedItems]
    | int i =>
      rw [formatterCore_cons_int, ih _ _ _ _ hrest]
      simp [foldTypes, FormatArg.resolvedType, flatItems_cons,
        FormatArg.resolvedItems]
    | body is_sheet surfs vols =>
      have ha' : decide ((if is_sheet then surfs else vols).length = 1)
          = true := ha
      have hlen : (if is_sheet then surfs else vols).length = 1 :=
        of_decide_eq_true ha'
      obtain ⟨o, ho⟩ := List.length_eq_one.mp hlen
      rw [formatterCore_cons_body, ho]
      show formatterCore rest n
          (insertType ts (if is_sheet then GeometryType.surface else .volume))
          (items ++ [o]) gt = _
      rw [ih _ _ _ _ hrest]
      simp [foldTypes, FormatArg.resolvedType, flatItems_cons,
        FormatArg.resolvedItems, ho]
    | objOther => simp [FormatArg.simpleOk] at ha
    | iterable elems => simp [FormatArg.simpleOk] at ha
    | other => simp [FormatArg.simpleOk] at ha

/-- The final checks fail whenever two distinct geometry types were
accumulated. -/
theorem formatterCore_nil_two_types (n : Nat) (ts : List GeometryType)
    (items : List Nat) (gt : Option GeometryType) (g1 g2 : GeometryType)
    (h1 : g1 ∈ ts) (h2 : g2 ∈ ts) (hne : g1 ≠ g2) :
    ∃ msg, formatterCore [] n ts items gt = .error msg := by
  have hlen1 : ts.length ≠ 1 := by
    intro hl
    obtain ⟨x, hx⟩ := List.length_eq_one.mp hl
    subst hx
    simp at h1 h2
    exact hne (h1.trans h2.symm)
  have hlen0 : ts.length ≠ 0 := by
    intro hl
    rw [List.length_eq_zero] at hl
    subst hl
    simp at h1
  rw [formatterCore]
  simp [hlen0, hlen1]

/-- When the resolved item list of the arguments is empty, the computation
never succeeds: either the loop raises along the way or a final check
fails. -/
theorem formatterCore_no_items :
    ∀ (pending : List FormatArg) (n : Nat) (ts : List GeometryType)
      (gt : Option GeometryType) (s : String), flatItems pending = [] →
      formatterCore pending n ts [] gt ≠ .ok s
  | [], n, ts, gt, s => by
    intro _
    rw [formatterCore]
    by_cases h0 : ts.length = 0
    · simp [h0]
    · by_cases h1 : ts.length = 1 <;> simp [h0, h1]
  | a :: rest, n, ts, gt, s => by
    intro hflat
    rw [flatItems_cons] at hflat
    have hsplit := List.append_eq_nil.mp hflat
    cases a with
    | geom g i => simp [FormatArg.resolvedItems] at hsplit
    | int i => simp [FormatArg.resolvedItems] at hsplit
    | group g ids =>
      have hids : ids = [] := by
        simpa [FormatArg.resolvedItems] using hsplit.1
      rw [formatterCore_cons_group, hids]
      exact formatterCore_no_items rest n (insertType ts g) gt s hsplit.2
    | body is_sheet surfs vols =>
      have hobjs := hsplit.1
      rw [FormatArg.resolvedItems.eq_3] at hobjs
      rw [formatterCore_cons_body, hobjs]
      simp
    | objOther => rw [formatterCore_cons_objOther]; simp
    | other => rw [formatterCore_cons_other]; simp
    | iterable elems =>
      rw [formatterCore_cons_iterable]
      by_cases hn : n = 1
      · simp only [hn, if_pos rfl]
        have helems : flatItems elems = [] := by
          rw [← resolvedItems_iterable]
          exact hsplit.1
        exact formatterCore_no_items elems elems.length (initTypes gt) gt s
          helems
      · simp [hn]
termination_by pending _ _ _ _ => sizeOf pending
decreasing_by
  all_goals simp_wf
  all_goals omega

/-- C9: the `formatter` argument-normalization utility (i) fails whenever two
arguments resolve to different geometric dimensionalities, (ii) fails
whenever the resolved item list is empty, and (iii) on a single iterable
argument returns exactly the result of passing the iterable's elements as
individual arguments. -/
theorem claim_C9 :
    (∀ (args : List FormatArg) (gt : Option GeometryType)
        (a1 a2 : FormatArg) (g1 g2 : GeometryType),
        (∀ a ∈ args, a.simpleOk) → a1 ∈ args → a2 ∈ args →
        a1.resolvedType = some g1 → a2.resolvedType = some g2 → g1 ≠ g2 →
        ∃ msg, formatter args gt = .error msg) ∧
    (∀ (args : List FormatArg) (gt : Option GeometryType),
        flatItems args = [] → ∃ msg, formatter args gt = .error msg) ∧
    (∀ (elems : List FormatArg) (gt : Option GeometryType),
        formatter [.iterable elems] gt = formatter elems gt) := by
  refine ⟨?_, ?_, ?_⟩
  · intro args gt a1 a2 g1 g2 hok h1 h2 ht1 ht2 hne
    rw [formatter, formatterCore_simple args _ _ _ _ hok]
    exact formatterCore_nil_two_types _ _ _ _ g1 g2
      (mem_foldTypes args _ a1 g1 h1 ht1)
      (mem_foldTypes args _ a2 g2 h2 ht2) hne
  · intro args gt hflat
    cases he : formatter args gt with
    | error m => exact ⟨m, rfl⟩
    | ok s =>
      rw [formatter] at he
      exact absurd he (formatterCore_no_items args args.length _ gt s hflat)
  · intro elems gt
    rw [formatter, formatter, formatterCore_cons_iterable]
    simp

/-- C9 witness: the theorem instantiated at a mixed surface/volume pair, at
an empty argument list, and at a concrete singleton iterable. -/
theorem claim_C9_witness :
    (∃ msg, formatter [.geom .surface 1, .geom .volume 2] none =
      .error msg) ∧
    (∃ msg, formatter ([] : List FormatArg) none = .error msg) ∧
    formatter [.iterable [.int 5]] (some .curve) =
      formatter [.int 5] (some .curve) := by
  refine ⟨?_, ?_, ?_⟩
  · refine claim_C9.1 [.geom .surface 1, .geom .volume 2] none
      (.geom .surface 1) (.geom .volume 2) .surface .volume ?_ ?_ ?_ rfl rfl
      (by decide)
    · intro a ha
      rcases List.mem_cons.mp ha with rfl | ha2
      · rfl
      · rcases List.mem_cons.mp ha2 with rfl | h3
        · rfl
        · simp at h3
    · exact List.mem_cons_self _ _
    · exact List.mem_cons_of_mem _ (List.mem_cons_self _ _)
  · exact claim_C9.2.1 [] none rfl
  · exact claim_C9.2.2 [.int 5] (some .curve)

/-! ## Claim C6: external-mesh node-set records -/

/-- The record the external-geometry path emits for a node set with native
id `k`: the stored description with `E := k` and
`ENTITY_TYPE := "node_set_id"`. -/
def ext_record (k : Nat) (data : NodeSetData) : Record :=
  Record.bc { data.bc_description with
    E := some k, entity_type := some "node_set_id" }

/-- The records the external-geometry loop appends to section `s`, one per
node set with that boundary-condition section, in key order. -/
def ext_contrib (r : List (Nat × NodeSetData)) : List Nat → String →
    List Record
  | [], _ => []
  | k :: rest, s =>
    match lookupAssoc r k with
    | none => ext_contrib r rest s
    | some data =>
      match data.bc_section with
      | none => ext_contrib r rest s
      | some sb =>
        if sb = s then ext_record k data :: ext_contrib r rest s
        else ext_contrib r rest s

theorem ext_contrib_members (r : List (Nat × NodeSetData)) :
    ∀ (keys : List Nat) (s : String) (rec : Record),
      rec ∈ ext_contrib r keys s → ∃ d, rec = .bc d := by
  intro keys
  induction keys with
  | nil => intro s rec h; simp [ext_contrib] at h
  | cons k rest ih =>
    intro s rec h
    cases hl : lookupAssoc r k with
    | none =>
      simp only [ext_contrib, hl] at h
      exact ih s rec h
    | some data =>
      cases hb : data.bc_section with
      | none =>
        simp only [ext_contrib, hl, hb] at h
        exact ih s rec h
      | some sb =>
        simp only [ext_contrib, hl, hb] at h
        by_cases hs : sb = s
        · rw [if_pos hs] at h
          rcases List.mem_cons.mp h with rfl | h'
          · exact ⟨_, rfl⟩
          · exact ih s rec h'
        · rw [if_neg hs] at h
          exact ih s rec h

/-- The external-geometry loop, characterized section by section. -/
theorem ext_geometry_loop_spec :
    ∀ (keys : List Nat) (r r0 : List (Nat × NodeSetData)) (f : InputFile)
      (r' : List (Nat × NodeSetData)) (f' : InputFile),
      ext_geometry_loop keys r f = .ok (r', f') →
      keys.Nodup →
      (∀ k ∈ keys, lookupAssoc r k = lookupAssoc r0 k) →
      ∀ s, getSection f' s =
        (if ext_contrib r0 keys s = [] then getSection f s
         else some ((getSection f s).getD [] ++ ext_contrib r0 keys s)) := by
  intro keys
  induction keys with
  | nil =>
    intro r r0 f r' f' hok _ _ s
    rw [ext_geometry_loop] at hok
    injection hok with h
    injection h with h1 h2
    subst h2
    simp [ext_contrib]
  | cons k rest ih =>
    intro r r0 f r' f' hok hnodup hsame s
    have hk : lookupAssoc r k = lookupAssoc r0 k :=
      hsame k (List.mem_cons_self _ _)
    have hnodup' : rest.Nodup := (List.nodup_cons.mp hnodup).2
    have hknotin : k ∉ rest := (List.nodup_cons.mp hnodup).1
    cases hl : lookupAssoc r k with
    | none =>
      simp only [ext_geometry_loop, hl] at hok
      exact absurd hok (by simp)
    | some data =>
      have hl0 : lookupAssoc r0 k = some data := hk ▸ hl
      cases hb : data.bc_section with
      | none =>
        simp only [ext_geometry_loop, hl, hb] at hok
        have := ih r r0 f r' f' hok hnodup'
          (fun k' hk' => hsame k' (List.mem_cons_of_mem _ hk')) s
        rw [this]
        simp only [ext_contrib, hl0, hb]
      | some sb =>
        simp only [ext_geometry_loop, hl, hb] at hok
        have hsame' : ∀ k' ∈ rest,
            lookupAssoc (updateAssoc r k
              { data with bc_description :=
                  { data.bc_description with
                    E := some k, entity_type := some "node_set_id" } }) k' =
              lookupAssoc r0 k' := by
          intro k' hk'
          have hne : k ≠ k' := fun h => hknotin (h ▸ hk')
          rw [lookupAssoc_updateAssoc_ne _ _ _ _ hne]
          exact hsame k' (List.mem_cons_of_mem _ hk')
        rw [hb] at hsame'
        have hrec := ih _ r0 _ r' f' hok hnodup' hsame' s
        rw [hrec]
        simp only [ext_contrib, hl0, hb]
        by_cases hs : sb = s
        · subst hs
          rw [if_pos rfl]
          have hub : getSection (appendToSection (ensureSection f sb) sb
              (.bc { data.bc_description with
                E := some k, entity_type := some "node_set_id" })) sb =
              some ((getSection f sb).getD [] ++ [ext_record k data]) := by
            rw [getSection_appendToSection_self, getSection_ensureSection_self]
            rfl
          by_cases hc : ext_contrib r0 rest sb = []
          · rw [hc, hub]
            simp
          · rw [if_neg hc, if_neg (by simp), hub]
            simp
        · rw [if_neg hs]
          have hother : getSection (appendToSection (ensureSection f sb) sb
              (.bc { data.bc_description with
                E := some k, entity_type := some "node_set_id" })) s =
              getSection f s := by
            rw [getSection_appendToSection_ne _ _ _ _ hs,
              getSection_ensureSection_ne _ _ _ hs]
          rw [hother]

/-- C6: in external-mesh mode, exactly one descriptive record per node set
with a configured boundary-condition section is appended to that section,
carrying the description with `E` set to the native id and
`ENTITY_TYPE = "node_set_id"`; sets are processed in ascending native-id
order (the iteration key list is the sorted key list); and no record other
than such boundary-condition records is added. -/
theorem claim_C6 (node_sets : List (Nat × NodeSetData)) (f : InputFile)
    (r' : List (Nat × NodeSetData)) (f' : InputFile)
    (hnodup : (node_sets.map (fun p => p.1)).Nodup)
    (hok : add_node_sets_external_geometry node_sets f = .ok (r', f')) :
    ((node_sets.map (fun p => p.1)).insertionSort (· ≤ ·)).Sorted (· ≤ ·) ∧
    ((node_sets.map (fun p => p.1)).insertionSort (· ≤ ·)).Perm
      (node_sets.map (fun p => p.1)) ∧
    (∀ s, getSection f' s =
      (if ext_contrib node_sets
          ((node_sets.map (fun p => p.1)).insertionSort (· ≤ ·)) s = []
       then getSection f s
       else some ((getSection f s).getD [] ++
         ext_contrib node_sets
           ((node_sets.map (fun p => p.1)).insertionSort (· ≤ ·)) s))) ∧
    (∀ s rs, getSection f' s = some rs → ∀ rec ∈ rs,
      rec ∈ (getSection f s).getD [] ∨ ∃ d, rec = .bc d) := by
  have hmain : ∀ s, getSection f' s =
      (if ext_contrib node_sets
          ((node_sets.map (fun p => p.1)).insertionSort (· ≤ ·)) s = []
       then getSection f s
       else some ((getSection f s).getD [] ++
         ext_contrib node_sets
           ((node_sets.map (fun p => p.1)).insertionSort (· ≤ ·)) s)) := by
    unfold add_node_sets_external_geometry at hok
    by_cases hlen : node_sets.length = 0
    · have hnil : node_sets = [] := List.length_eq_zero.mp hlen
      subst hnil
      rw [if_pos hlen] at hok
      injection hok with h
      injection h with h1 h2
      subst h2
      intro s
      simp [ext_contrib]
    · rw [if_neg hlen] at hok
      exact ext_geometry_loop_spec _ node_sets node_sets f r' f' hok
        ((List.perm_insertionSort _ _).nodup_iff.mpr hnodup)
        (fun k _ => rfl)
  refine ⟨List.sorted_insertionSort _ _, List.perm_insertionSort _ _,
    hmain, ?_⟩
  intro s rs hrs rec hrec
  have h3 := hmain s
  by_cases hc : ext_contrib node_sets
      ((node_sets.map (fun p => p.1)).insertionSort (· ≤ ·)) s = []
  · rw [if_pos hc, hrs] at h3
    left
    rw [← h3]
    exact hrec
  · rw [if_neg hc, hrs] at h3
    injection h3 with h3'
    rw [h3'] at hrec
    rcases List.mem_append.mp hrec with hold | hnew
    · exact Or.inl hold
    · exact Or.inr (ext_contrib_members node_sets _ s rec hnew)

/-- A concrete one-entry node-set registry used by the C6 witness. -/
def c6_registry : List (Nat × NodeSetData) :=
  [(5, { bc_section := some "SEC", bc_description := { payload := 1 },
         geometry_type := .vertex })]

/-- C6 witness: the theorem instantiated at a concrete registry and an
empty deck. -/
theorem claim_C6_witness :
    getSection (⟨[("SEC",
        [Record.bc
          { payload := 1, E := some 5,
            entity_type := some "node_set_id" }])]⟩ : InputFile) "SEC" =
      (if ext_contrib c6_registry
          ((c6_registry.map (fun p => p.1)).insertionSort (· ≤ ·)) "SEC" = []
       then getSection (⟨[]⟩ : InputFile) "SEC"
       else some ((getSection (⟨[]⟩ : InputFile) "SEC").getD [] ++
         ext_contrib c6_registry
           ((c6_registry.map (fun p => p.1)).insertionSort (· ≤ ·)) "SEC")) :=
  (claim_C6 c6_registry ⟨[]⟩
    [(5,
      { bc_section := some "SEC",
        bc_description :=
          { payload := 1, E := some 5, entity_type := some "node_set_id" },
        geometry_type := .vertex })]
    ⟨[("SEC",
      [Record.bc
        { payload := 1, E := some 5,
          entity_type := some "node_set_id" }])]⟩
    (by decide) rfl).2.2.1 "SEC"

/-! ## Claim C4: sequential element ids across blocks -/

/-- The element records one block contributes when the global element
counter starts at `i`: ids `i+1, i+2, ...` in row order. -/
def block_contrib (et : EleType) (bd : Nat) : Nat → List (List Nat) →
    List Record
  | _, [] => []
  | i, conn :: rest =>
      .element (i + 1) (get_element_connectivity_list conn)
          et.four_c_type et.four_c_name bd ::
        block_contrib et bd (i + 1) rest

/-- The element id stored in a record (0 for non-element records). -/
def elem_id : Record → Nat
  | .element i _ _ _ _ => i
  | _ => 0

/-- Deck-level description of the element loop: per block in file order,
ensure the block's solver section and append its contribution, threading the
global element counter. -/
def add_elements_spec :
    List (String × EleType × Nat × List (List Nat)) → Nat → InputFile →
    InputFile
  | [], _, f => f
  | (sec, et, bd, rows) :: rest, i, f =>
      add_elements_spec rest (i + rows.length)
        (appendRecords (ensureSection f sec) sec (block_contrib et bd i rows))

theorem add_block_rows_spec (et : EleType) (bd : Nat) (sec : String) :
    ∀ (rows : List (List Nat)) (i : Nat) (f : InputFile),
      add_block_rows et bd sec rows i f =
        (i + rows.length, appendRecords f sec (block_contrib et bd i rows)) := by
  intro rows
  induction rows with
  | nil => intro i f; simp [add_block_rows, block_contrib, appendRecords]
  | cons conn rest ih =>
    intro i f
    rw [add_block_rows, ih, block_contrib]
    simp only [Prod.mk.injEq, List.length_cons]
    exact ⟨by omega, rfl⟩

theorem block_contrib_ids (et : EleType) (bd : Nat) :
    ∀ (rows : List (List Nat)) (j : Nat),
      (block_contrib et bd j rows).map elem_id =
        List.range' (j + 1) rows.length := by
  intro rows
  induction rows with
  | nil => intro j; simp [block_contrib]
  | cons conn rest ih =>
    intro j
    rw [block_contrib, List.map_cons, ih (j + 1), List.length_cons,
      List.range'_succ]
    rfl

/-- C4: element records receive 1-based ids that increase by one per element
across all blocks without resetting at block boundaries: on success the
final deck arises from the input deck by appending, per block in file order,
that block's contribution, where the block starting at counter `j`
contributes records with ids `j+1, ..., j+rows`, and each block hands the
counter `j + rows` to the next one; the final counter is the total number of
element rows. -/
theorem claim_C4 :
    ∀ (pending : List Nat) (blocks : List (Nat × EleType × Nat))
      (exo : ExoFile) (m : List (Nat × Nat)) (i : Nat) (f : InputFile)
      (i' : Nat) (f' : InputFile),
      add_elements blocks exo m pending i f = .ok (i', f') →
      ∃ metas : List (String × EleType × Nat × List (List Nat)),
        f' = add_elements_spec metas i f ∧
        i' = i + (metas.map (fun mt => mt.2.2.2.length)).sum ∧
        metas.map (fun mt => mt.2.2.2) =
          pending.map (fun e => (exo.connect.get? e).getD []) ∧
        (∀ (et : EleType) (bd j : Nat) (rows : List (List Nat)),
          (block_contrib et bd j rows).map elem_id =
            List.range' (j + 1) rows.length) := by
  intro pending
  induction pending with
  | nil =>
    intro blocks exo m i f i' f' hok
    rw [add_elements] at hok
    injection hok with h
    injection h with h1 h2
    refine ⟨[], h2.symm, ?_, rfl, fun et bd j rows => block_contrib_ids et bd rows j⟩
    simp [h1.symm]
  | cons e rest ih =>
    intro blocks exo m i f i' f' hok
    cases hm : lookupAssoc m e with
    | none =>
      simp only [add_elements, hm] at hok
      exact Except.noConfusion hok
    | some cid =>
      cases hbl : lookupAssoc blocks cid with
      | none =>
        simp only [add_elements, hm, hbl] at hok
        exact Except.noConfusion hok
      | some etbd =>
        obtain ⟨et, bd⟩ := etbd
        cases hcn : exo.connect.get? e with
        | none =>
          simp only [add_elements, hm, hbl, hcn] at hok
          exact Except.noConfusion hok
        | some rows =>
          simp only [add_elements, hm, hbl, hcn, add_block_rows_spec] at hok
          obtain ⟨metas', h1, h2, h3, h4⟩ := ih blocks exo m _ _ i' f' hok
          refine ⟨(et.four_c_section ++ " ELEMENTS", et, bd, rows) :: metas',
            ?_, ?_, ?_, h4⟩
          · rw [add_elements_spec]
            exact h1
          · simp only [List.map_cons, List.sum_cons]
            omega
          · simp only [List.map_cons, hcn]
            rw [h3]
            rfl

/-- A concrete two-block exodus file (block sizes 3 and 2 in file order)
used by the C4 witness. -/
def c4_exo : ExoFile :=
  { ns_prop1 := [], ns_names := [], node_ns := [], eb_prop1 := [2, 1],
    eb_names := [[], []], connect := [[[1], [2], [3]], [[4], [5]]],
    coordx := [], coordy := [], coordz := none }

/-- The block registry used by the C4 witness. -/
def c4_blocks : List (Nat × EleType × Nat) :=
  [(1, ⟨"STRUCTURE", "HEX8", "SOLID"⟩, 7),
   (2, ⟨"STRUCTURE", "TET4", "SOLID"⟩, 8)]

/-- The deck the element loop produces for the C4 witness input: element
ids 1,2,3 for the first block and 4,5 for the second. -/
def c4_out : InputFile :=
  ⟨[("STRUCTURE ELEMENTS",
     [Record.element 1 [1] "TET4" "SOLID" 8,
      Record.element 2 [2] "TET4" "SOLID" 8,
      Record.element 3 [3] "TET4" "SOLID" 8,
      Record.element 4 [4] "HEX8" "SOLID" 7,
      Record.element 5 [5] "HEX8" "SOLID" 7])]⟩

/-- C4 witness: the theorem instantiated at two blocks of sizes 3 and 2,
together with the resulting concrete id sequence 1,2,3 then 4,5. -/
theorem claim_C4_witness :
    (∃ metas : List (String × EleType × Nat × List (List Nat)),
      c4_out = add_elements_spec metas 0 ⟨[]⟩ ∧
      5 = 0 + (metas.map (fun mt => mt.2.2.2.length)).sum ∧
      metas.map (fun mt => mt.2.2.2) =
        [0, 1].map (fun e => (c4_exo.connect.get? e).getD []) ∧
      (∀ (et : EleType) (bd j : Nat) (rows : List (List Nat)),
        (block_contrib et bd j rows).map elem_id =
          List.range' (j + 1) rows.length)) ∧
    (getSection c4_out "STRUCTURE ELEMENTS").map (fun rs => rs.map elem_id) =
      some [1, 2, 3, 4, 5] :=
  ⟨claim_C4 [0, 1] c4_blocks c4_exo (build_exo_to_cubit 0 c4_exo.eb_prop1)
    0 ⟨[]⟩ 5 c4_out rfl, by decide⟩

/-! ## Claim C5: the session's pre-mesh deck is left untouched -/

/-- C5: the deck returned by `get_input_file_with_mesh` is built on an
independent copy; after the call the session still holds its original
pre-mesh deck (and its original block registry) — all node, element,
topology and boundary-condition records went into the returned copy only. -/
theorem claim_C5 (cubit : CubitSession) (exo : ExoFile) (deck : InputFile)
    (cubit' : CubitSession)
    (hok : get_input_file_with_mesh cubit exo = .ok (deck, cubit')) :
    cubit'.fourc_input = cubit.fourc_input ∧ cubit'.blocks = cubit.blocks := by
  unfold get_input_file_with_mesh at hok
  split at hok
  · exact Except.noConfusion hok
  · split at hok
    · exact Except.noConfusion hok
    · dsimp only at hok
      split at hok
      · exact Except.noConfusion hok
      · injection hok with h
        injection h with h1 h2
        subst h2
        exact ⟨rfl, rfl⟩

/-- The exodus file used by the C5 witness. -/
def c5_exo : ExoFile :=
  { ns_prop1 := [], ns_names := [], node_ns := [], eb_prop1 := [],
    eb_names := [], connect := [], coordx := [1], coordy := [2],
    coordz := none }

/-- C5 witness: the theorem instantiated at a concrete session whose deck
holds one pre-existing section. -/
theorem claim_C5_witness :
    (⟨[], [], ⟨[("T", [])]⟩⟩ : CubitSession).fourc_input =
      (⟨[], [], ⟨[("T", [])]⟩⟩ : CubitSession).fourc_input ∧
    (⟨[], [], ⟨[("T", [])]⟩⟩ : CubitSession).blocks =
      (⟨[], [], ⟨[("T", [])]⟩⟩ : CubitSession).blocks :=
  claim_C5 ⟨[], [], ⟨[("T", [])]⟩⟩ c5_exo
    ⟨[("T", []), ("NODE COORDS", [Record.node 1 (1, 2, 0)])]⟩
    ⟨[], [], ⟨[("T", [])]⟩⟩ rfl

/-! ## The node-set projector: specification helpers (for C2, C3, C10) -/

/-- The geometry type governing the node set at exchange index `e`, read
through the original registry. -/
def geomAt (r : List (Nat × NodeSetData)) (exo : ExoFile) (e : Nat) :
    Option GeometryType :=
  match exo.ns_prop1.get? e with
  | none => none
  | some cid => (lookupAssoc r cid).map (fun d => d.geometry_type)

/-- The 1-based positional slot of exchange index `e` within its
dimensionality bucket: one more than the number of earlier exchange indices
whose node set has the same geometry type. -/
def slotIndex (r : List (Nat × NodeSetData)) (exo : ExoFile) (e : Nat) : Nat :=
  1 + (List.range e).countP
    (fun e' => decide (geomAt r exo e' = geomAt r exo e))

/-- The member-node arrays collected into the bucket of geometry `g`, over a
list of exchange indices in order. -/
def bucketSpec (r : List (Nat × NodeSetData)) (exo : ExoFile)
    (g : GeometryType) : List Nat → List (List Nat)
  | [] => []
  | e :: rest =>
    match exo.ns_prop1.get? e, exo.node_ns.get? e with
    | some cid, some nodes =>
      (match lookupAssoc r cid with
       | some data =>
         if data.geometry_type = g then nodes :: bucketSpec r exo g rest
         else bucketSpec r exo g rest
       | none => bucketSpec r exo g rest)
    | _, _ => bucketSpec r exo g rest

theorem NodeSetBuckets.get_push (b : NodeSetBuckets) (g g' : GeometryType)
    (nodes : List Nat) :
    (b.push g nodes).get g' =
      if g' = g then b.get g' ++ [nodes] else b.get g' := by
  cases g <;> cases g' <;> simp [NodeSetBuckets.push, NodeSetBuckets.get]

theorem NodeSetBuckets.get_empty (g : GeometryType) :
    NodeSetBuckets.empty.get g = [] := by
  cases g <;> rfl

theorem get?_inj_of_nodup {l : List Nat} (h : l.Nodup) {i j x : Nat}
    (hi : l.get? i = some x) (hj : l.get? j = some x) : i = j := by
  have hbi : i < l.length := by
    by_contra hx
    rw [List.get?_eq_none.mpr (by omega)] at hi
    exact Option.noConfusion hi
  apply List.getElem?_inj hbi h
  rw [← List.get?_eq_getElem?, ← List.get?_eq_getElem?, hi, hj]

/-- Master characterization of the bucketing loop of
`add_node_sets_input_file` over the exchange-index window `[s, s+k)`:
(1) every processed set's registry entry ends up carrying
`E = slotIndex` (its 1-based position within its dimensionality bucket),
whether or not a boundary-condition section is configured;
(2) registry entries of untouched native ids are unchanged;
(3) the final buckets extend the incoming buckets by the window's
member-node arrays in file order, bucketed by geometry;
(4) deck sections that are no set's boundary-condition section are
unchanged. -/
theorem process_node_sets_master (exo : ExoFile) (m : List (Nat × Nat))
    (r0 : List (Nat × NodeSetData))
    (hm : ∀ e, lookupAssoc m e = exo.ns_prop1.get? e)
    (hnodup : exo.ns_prop1.Nodup) :
    ∀ (k s : Nat) (b : NodeSetBuckets) (r : List (Nat × NodeSetData))
      (f : InputFile) (b' : NodeSetBuckets) (r' : List (Nat × NodeSetData))
      (f' : InputFile),
      process_node_sets exo m (List.range' s k) b r f = .ok (b', r', f') →
      (∀ e cid, s ≤ e → e < s + k → exo.ns_prop1.get? e = some cid →
        lookupAssoc r cid = lookupAssoc r0 cid) →
      (∀ g, (b.get g).length =
        (List.range s).countP (fun e' => decide (geomAt r0 exo e' = some g))) →
      (∀ e, s ≤ e → e < s + k → ∃ cid data nodes,
          exo.ns_prop1.get? e = some cid ∧
          lookupAssoc r0 cid = some data ∧
          exo.node_ns.get? e = some nodes ∧
          lookupAssoc r' cid = some
            { data with bc_description :=
              { data.bc_description with
                E := some (slotIndex r0 exo e) } }) ∧
      (∀ cid, (∀ e, s ≤ e → e < s + k → exo.ns_prop1.get? e ≠ some cid) →
        lookupAssoc r' cid = lookupAssoc r cid) ∧
      (∀ g, b'.get g = b.get g ++ bucketSpec r0 exo g (List.range' s k)) ∧
      (∀ sname, (∀ e cid data, s ≤ e → e < s + k →
          exo.ns_prop1.get? e = some cid → lookupAssoc r0 cid = some data →
          data.bc_section ≠ some sname) →
        getSection f' sname = getSection f sname) := by
  intro k
  induction k with
  | zero =>
    intro s b r f b' r' f' hok hr hb
    rw [show List.range' s 0 = [] from rfl, process_node_sets] at hok
    injection hok with h
    injection h with h1 h23
    injection h23 with h2 h3
    subst h1; subst h2; subst h3
    refine ⟨?_, ?_, ?_, ?_⟩
    · intro e he1 he2; omega
    · intro cid _; rfl
    · intro g; simp [bucketSpec]
    · intro sname _; rfl
  | succ k ihk =>
    intro s b r f b' r' f' hok hr hb
    rw [List.range'_succ] at hok
    cases hcid : exo.ns_prop1.get? s with
    | none =>
      simp only [process_node_sets, hm, hcid] at hok
      exact Except.noConfusion hok
    | some cid =>
      cases hdata : lookupAssoc r cid with
      | none =>
        simp only [process_node_sets, hm, hcid, hdata] at hok
        exact Except.noConfusion hok
      | some data =>
        cases hnodes : exo.node_ns.get? s with
        | none =>
          simp only [process_node_sets, hm, hcid, hdata, hnodes] at hok
          exact Except.noConfusion hok
        | some nodes =>
          simp only [process_node_sets, hm, hcid, hdata, hnodes] at hok
          have hdata0 : lookupAssoc r0 cid = some data := by
            rw [← hr s cid (Nat.le_refl s) (by omega) hcid]
            exact hdata
          have hgeomS : geomAt r0 exo s = some data.geometry_type := by
            have hcid' : exo.ns_prop1[s]? = some cid := by
              rw [← List.get?_eq_getElem?]
              exact hcid
            simp [geomAt, hcid', hdata0]
          have hEval :
              ((b.push data.geometry_type nodes).get data.geometry_type).length
                = slotIndex r0 exo s := by
            rw [NodeSetBuckets.get_push, if_pos rfl, List.length_append,
              hb data.geometry_type, slotIndex]
            simp only [hgeomS, List.length_singleton]
            omega
          have hr' : ∀ e cid', s + 1 ≤ e → e < s + 1 + k →
              exo.ns_prop1.get? e = some cid' →
              lookupAssoc (updateAssoc r cid
                { data with bc_description :=
                  { data.bc_description with
                    E := some ((b.push data.geometry_type nodes).get
                      data.geometry_type).length } }) cid' =
                lookupAssoc r0 cid' := by
            intro e cid' he1 he2 hget
            have hne : cid ≠ cid' := by
              intro hEq
              subst hEq
              have := get?_inj_of_nodup hnodup hget hcid
              omega
            rw [lookupAssoc_updateAssoc_ne _ _ _ _ hne]
            exact hr e cid' (by omega) (by omega) hget
          have hb' : ∀ g,
              ((b.push data.geometry_type nodes).get g).length =
                (List.range (s + 1)).countP
                  (fun e' => decide (geomAt r0 exo e' = some g)) := by
            intro g
            rw [List.range_succ, List.countP_append,
              NodeSetBuckets.get_push]
            by_cases hg : g = data.geometry_type
            · rw [hg, if_pos rfl, List.length_append, hb data.geometry_type]
              simp [hgeomS]
            · rw [if_neg hg, hb g]
              have : (decide (geomAt r0 exo s = some g)) = false := by
                simp [hgeomS]
                intro hcontra
                exact absurd hcontra.symm hg
              simp [this]
          obtain ⟨Q1, Q2, Q3, Q4⟩ :=
            ihk (s + 1) (b.push data.geometry_type nodes) _ _ b' r' f' hok
              hr' hb'
          refine ⟨?_, ?_, ?_, ?_⟩
          · intro e he1 he2
            by_cases hes : e = s
            · rw [hes]
              refine ⟨cid, data, nodes, hcid, hdata0, hnodes, ?_⟩
              have hunt : ∀ e', s + 1 ≤ e' → e' < s + 1 + k →
                  exo.ns_prop1.get? e' ≠ some cid := by
                intro e' he1' he2' hget'
                have := get?_inj_of_nodup hnodup hget' hcid
                omega
              rw [Q2 cid hunt,
                lookupAssoc_updateAssoc_self _ _ _ (by rw [hdata]; rfl),
                hEval]
            · exact Q1 e (by omega) (by omega)
          · intro cid' hunt
            have hne : cid ≠ cid' := by
              intro hEq
              subst hEq
              exact hunt s (Nat.le_refl s) (by omega) hcid
            rw [Q2 cid' (fun e he1 he2 => hunt e (by omega) (by omega)),
              lookupAssoc_updateAssoc_ne _ _ _ _ hne]
          · intro g
            rw [Q3 g, NodeSetBuckets.get_push, List.range'_succ]
            simp only [bucketSpec, hcid, hnodes, hdata0]
            by_cases hg : data.geometry_type = g
            · rw [if_pos hg.symm, if_pos hg]
              simp
            · rw [if_neg (fun h => hg h.symm), if_neg hg]
          · intro sname hsec
            rw [Q4 sname (fun e cid' data' he1 he2 hget hlook =>
              hsec e cid' data' (by omega) (by omega) hget hlook)]
            have hbcs : data.bc_section ≠ some sname :=
              hsec s cid data (Nat.le_refl s) (by omega) hcid hdata0
            cases hbc : data.bc_section with
            | none => rfl
            | some sb =>
              have hne : sb ≠ sname := by
                intro hEq
                exact hbcs (hbc.trans (by rw [hEq]))
              rw [getSection_appendToSection_ne _ _ _ _ hne,
                getSection_ensureSection_ne _ _ _ hne]

theorem lookupAssoc_build_exo_to_cubit :
    ∀ (l : List Nat) (j e : Nat),
      lookupAssoc (build_exo_to_cubit j l) e =
        if j ≤ e then l.get? (e - j) else none := by
  intro l
  induction l with
  | nil =>
    intro j e
    rw [build_exo_to_cubit, lookupAssoc]
    split <;> rfl
  | cons cid rest ih =>
    intro j e
    rw [build_exo_to_cubit, lookupAssoc]
    by_cases hj : j = e
    · subst hj
      rw [if_pos rfl, if_pos (Nat.le_refl j), Nat.sub_self]
      rfl
    · rw [if_neg hj, ih (j + 1) e]
      by_cases hle : j ≤ e
      · have hle' : j + 1 ≤ e := by omega
        rw [if_pos hle, if_pos hle']
        have : e - j = (e - (j + 1)) + 1 := by omega
        rw [this]
        rfl
      · rw [if_neg (by omega), if_neg hle]

theorem exo_id_map_spec (exo : ExoFile) :
    ∀ e, lookupAssoc (build_exo_to_cubit 0 exo.ns_prop1) e =
      exo.ns_prop1.get? e := by
  intro e
  rw [lookupAssoc_build_exo_to_cubit]
  simp

/-- Success-path destructuring of `add_node_sets_input_file` for a
non-empty registry. -/
theorem add_node_sets_destruct (node_sets : List (Nat × NodeSetData))
    (exo : ExoFile) (f : InputFile) (r' : List (Nat × NodeSetData))
    (f' : InputFile) (hne : node_sets ≠ [])
    (hok : add_node_sets_input_file node_sets exo f = .ok (r', f')) :
    ∃ b f1, process_node_sets exo (build_exo_to_cubit 0 exo.ns_prop1)
        (List.range exo.ns_prop1.length) NodeSetBuckets.empty node_sets f =
        .ok (b, r', f1) ∧ f' = add_topology_sections b f1 := by
  unfold add_node_sets_input_file at hok
  rw [if_neg (fun h => hne (List.length_eq_zero.mp h))] at hok
  have hx : exo_to_cubit_ids exo "nodeset" =
      .ok (build_entries_info (exo.ns_names.map decode_name) 0 exo.ns_prop1,
        build_cubit_to_exo 0 exo.ns_prop1,
        build_exo_to_cubit 0 exo.ns_prop1) := by
    rw [exo_to_cubit_ids, if_neg (by decide), if_pos rfl]
  rw [hx] at hok
  dsimp only at hok
  cases hp : process_node_sets exo (build_exo_to_cubit 0 exo.ns_prop1)
      (List.range exo.ns_prop1.length) NodeSetBuckets.empty node_sets f with
  | error e =>
    rw [hp] at hok
    exact Except.noConfusion hok
  | ok out =>
    obtain ⟨b, rr, f1⟩ := out
    rw [hp] at hok
    dsimp only at hok
    injection hok with h
    injection h with h1 h2
    subst h1
    exact ⟨b, f1, rfl, h2.symm⟩

/-- The `E` assignment performed by the embedded-mesh path, stated at the
level of `add_node_sets_input_file` (shared by C2 and C10). -/
theorem add_node_sets_E_assignment (node_sets : List (Nat × NodeSetData))
    (exo : ExoFile) (f : InputFile) (r' : List (Nat × NodeSetData))
    (f' : InputFile) (hnodup : exo.ns_prop1.Nodup) (hne : node_sets ≠ [])
    (hok : add_node_sets_input_file node_sets exo f = .ok (r', f')) :
    ∀ e, e < exo.ns_prop1.length → ∃ cid data nodes,
      exo.ns_prop1.get? e = some cid ∧
      lookupAssoc node_sets cid = some data ∧
      exo.node_ns.get? e = some nodes ∧
      lookupAssoc r' cid = some
        { data with bc_description :=
          { data.bc_description with
            E := some (slotIndex node_sets exo e) } } := by
  obtain ⟨b, f1, hp, hf'⟩ := add_node_sets_destruct node_sets exo f r' f'
    hne hok
  rw [List.range_eq_range'] at hp
  obtain ⟨P1, _, _, _⟩ := process_node_sets_master exo
    (build_exo_to_cubit 0 exo.ns_prop1) node_sets (exo_id_map_spec exo)
    hnodup exo.ns_prop1.length 0 NodeSetBuckets.empty node_sets f b r' f1 hp
    (fun _ _ _ _ _ => rfl)
    (fun g => by simp [NodeSetBuckets.get_empty])
  intro e he
  exact P1 e (Nat.zero_le e) (by omega)

/-- C2: in the embedded-mesh path, the value written under key `E` of every
node set's boundary-condition description is its 1-based positional slot
within its dimensionality bucket, assigned in ascending exchange-index
order (`slotIndex` counts the earlier exchange indices with the same
geometry type, so the values in one bucket are the contiguous sequence
1,2,3,... in file order); a node set whose BC section is `none` still
receives a slot and consumes one. -/
theorem claim_C2 (node_sets : List (Nat × NodeSetData))
    (exo : ExoFile) (f : InputFile) (r' : List (Nat × NodeSetData))
    (f' : InputFile) (hnodup : exo.ns_prop1.Nodup) (hne : node_sets ≠ [])
    (hok : add_node_sets_input_file node_sets exo f = .ok (r', f')) :
    ∀ e, e < exo.ns_prop1.length → ∃ cid data nodes,
      exo.ns_prop1.get? e = some cid ∧
      lookupAssoc node_sets cid = some data ∧
      exo.node_ns.get? e = some nodes ∧
      lookupAssoc r' cid = some
        { data with bc_description :=
          { data.bc_description with
            E := some (slotIndex node_sets exo e) } } :=
  add_node_sets_E_assignment node_sets exo f r' f' hnodup hne hok

/-- The node-set registry used by the C2 witness: a surface set with a BC
section followed by a surface set without one. -/
def c2_registry : List (Nat × NodeSetData) :=
  [(10, ⟨some "SECA", ⟨100, none, none⟩, .surface⟩),
   (4, ⟨none, ⟨200, none, none⟩, .surface⟩)]

/-- The exodus file used by the C2 witness. -/
def c2_exo : ExoFile :=
  { ns_prop1 := [10, 4], ns_names := [[], []], node_ns := [[5, 3], [4]],
    eb_prop1 := [], eb_names := [], connect := [], coordx := [], coordy := [],
    coordz := none }

/-- The registry after the C2 witness call: slots 1 and 2 in the surface
bucket, including the set without a BC section. -/
def c2_registry_out : List (Nat × NodeSetData) :=
  [(10, ⟨some "SECA", ⟨100, some 1, none⟩, .surface⟩),
   (4, ⟨none, ⟨200, some 2, none⟩, .surface⟩)]

/-- The deck after the C2 witness call. -/
def c2_deck_out : InputFile :=
  ⟨[("SECA", [Record.bc ⟨100, some 1, none⟩]),
    ("DSURF-NODE TOPOLOGY",
     [Record.topo "NODE" 3 "DSURFACE" 1,
      Record.topo "NODE" 5 "DSURFACE" 1,
      Record.topo "NODE" 4 "DSURFACE" 2])]⟩

/-- C2 witness: the theorem instantiated at the concrete two-set registry,
at exchange index 1 (the set without a BC section, which still occupies
slot 2 of the surface bucket). -/
theorem claim_C2_witness :
    ∃ cid data nodes,
      c2_exo.ns_prop1.get? 1 = some cid ∧
      lookupAssoc c2_registry cid = some data ∧
      c2_exo.node_ns.get? 1 = some nodes ∧
      lookupAssoc c2_registry_out cid = some
        { data with bc_description :=
          { data.bc_description with
            E := some (slotIndex c2_registry c2_exo 1) } } :=
  claim_C2 c2_registry c2_exo ⟨[]⟩ c2_registry_out c2_deck_out
    (by decide) (by decide) rfl 1 (by decide)

/-- C10: the embedded-mesh path writes key `E` into the session-owned
boundary-condition description of every node set — including sets whose BC
section is `none` — so after `get_input_file_with_mesh` the returned session
state's registry stores, for every exchange index, the original description
with `E` overwritten by the positional slot. -/
theorem claim_C10 (cubit : CubitSession) (exo : ExoFile) (deck : InputFile)
    (cubit' : CubitSession) (hnodup : exo.ns_prop1.Nodup)
    (hne : cubit.node_sets ≠ [])
    (hok : get_input_file_with_mesh cubit exo = .ok (deck, cubit')) :
    ∀ e, e < exo.ns_prop1.length → ∃ cid data,
      exo.ns_prop1.get? e = some cid ∧
      lookupAssoc cubit.node_sets cid = some data ∧
      lookupAssoc cubit'.node_sets cid = some
        { data with bc_description :=
          { data.bc_description with
            E := some (slotIndex cubit.node_sets exo e) } } ∧
      (data.bc_section = none →
        lookupAssoc cubit'.node_sets cid = some
          { data with bc_description :=
            { data.bc_description with
              E := some (slotIndex cubit.node_sets exo e) } }) := by
  have hdes : ∃ f1, add_node_sets_input_file cubit.node_sets exo
      cubit.fourc_input = .ok (cubit'.node_sets, f1) := by
    unfold get_input_file_with_mesh at hok
    split at hok
    · exact Except.noConfusion hok
    next ns' f1 heq =>
      refine ⟨f1, ?_⟩
      dsimp only at hok
      split at hok
      · exact Except.noConfusion hok
      · split at hok
        · exact Except.noConfusion hok
        · injection hok with h
          injection h with h1 h2
          rw [← h2]
          exact heq
  obtain ⟨f1, hok1⟩ := hdes
  intro e he
  obtain ⟨cid, data, nodes, hcid, hdata, _, hstore⟩ :=
    add_node_sets_E_assignment cubit.node_sets exo cubit.fourc_input
      cubit'.node_sets f1 hnodup hne hok1 e he
  exact ⟨cid, data, hcid, hdata, hstore, fun _ => hstore⟩

/-- The session used by the C10 witness. -/
def c10_session : CubitSession := ⟨c2_registry, [], ⟨[]⟩⟩

/-- The exodus file used by the C10 witness. -/
def c10_exo : ExoFile := { c2_exo with coordx := [1], coordy := [2] }

/-- The deck the C10 witness call returns. -/
def c10_deck : InputFile :=
  ⟨[("SECA", [Record.bc ⟨100, some 1, none⟩]),
    ("DSURF-NODE TOPOLOGY",
     [Record.topo "NODE" 3 "DSURFACE" 1,
      Record.topo "NODE" 5 "DSURFACE" 1,
      Record.topo "NODE" 4 "DSURFACE" 2]),
    ("NODE COORDS", [Record.node 1 (1, 2, 0)])]⟩

/-- C10 witness: the theorem instantiated at a concrete session; the set
with native id 4 has no BC section and still gets `E` written into its
stored description. -/
theorem claim_C10_witness :
    ∃ cid data,
      c10_exo.ns_prop1.get? 1 = some cid ∧
      lookupAssoc c10_session.node_sets cid = some data ∧
      lookupAssoc (⟨c2_registry_out, [], ⟨[]⟩⟩ : CubitSession).node_sets cid =
        some { data with bc_description :=
          { data.bc_description with
            E := some (slotIndex c10_session.node_sets c10_exo 1) } } ∧
      (data.bc_section = none →
        lookupAssoc (⟨c2_registry_out, [], ⟨[]⟩⟩ : CubitSession).node_sets
            cid = some { data with bc_description :=
          { data.bc_description with
            E := some (slotIndex c10_session.node_sets c10_exo 1) } }) :=
  claim_C10 c10_session c10_exo c10_deck ⟨c2_registry_out, [], ⟨[]⟩⟩
    (by decide) (by decide) rfl 1 (by decide)

/-! ## Claim C3: topology sections -/

/-- The records of one topology section: for each set of the bucket in
order, its sorted member nodes, each tagged with the set's 1-based
position. -/
def topo_content (set_label : String) : Nat → List (List Nat) → List Record
  | _, [] => []
  | i, ns :: rest =>
      topo_records set_label i (ns.insertionSort (· ≤ ·)) ++
        topo_content set_label (i + 1) rest

theorem topo_append_sets_get_self (sec set_label : String) :
    ∀ (sets : List (List Nat)) (i : Nat) (f : InputFile),
      getSection (topo_append_sets sec set_label i sets f) sec =
        (getSection f sec).map (fun c => c ++ topo_content set_label i sets) := by
  intro sets
  induction sets with
  | nil =>
    intro i f
    rw [topo_append_sets, topo_content]
    cases h : getSection f sec <;> simp [h]
  | cons ns rest ih =>
    intro i f
    rw [topo_append_sets, topo_content, ih, getSection_appendRecords_self]
    cases h : getSection f sec <;> simp [h]

theorem topo_append_sets_get_ne (sec set_label s : String) (h : sec ≠ s) :
    ∀ (sets : List (List Nat)) (i : Nat) (f : InputFile),
      getSection (topo_append_sets sec set_label i sets f) s =
        getSection f s := by
  intro sets
  induction sets with
  | nil => intro i f; rfl
  | cons ns rest ih =>
    intro i f
    rw [topo_append_sets, ih, getSection_appendRecords_ne _ _ _ _ h]

theorem add_topology_for_geo_get_self (sets : List (List Nat))
    (sec set_label : String) (f : InputFile) :
    getSection (add_topology_for_geo sets sec set_label f) sec =
      if 0 < sets.length then some (topo_content set_label 0 sets)
      else getSection f sec := by
  unfold add_topology_for_geo
  by_cases h : 0 < sets.length
  · rw [if_pos h, if_pos h, topo_append_sets_get_self,
      getSection_setSection_self]
    rfl
  · rw [if_neg h, if_neg h]

theorem add_topology_for_geo_get_ne (sets : List (List Nat))
    (sec set_label s : String) (f : InputFile) (h : sec ≠ s) :
    getSection (add_topology_for_geo sets sec set_label f) s =
      getSection f s := by
  unfold add_topology_for_geo
  by_cases hl : 0 < sets.length
  · rw [if_pos hl, topo_append_sets_get_ne _ _ _ h,
      getSection_setSection_ne _ _ _ _ h]
  · rw [if_neg hl]

theorem add_topology_sections_get (b : NodeSetBuckets) (f : InputFile)
    (g : GeometryType) :
    getSection (add_topology_sections b f) (topoSectionName g) =
      if 0 < (b.get g).length then
        some (topo_content (topoSetLabel g) 0 (b.get g))
      else getSection f (topoSectionName g) := by
  cases g with
  | vertex =>
    unfold add_topology_sections
    rw [add_topology_for_geo_get_ne _ _ _ _ _ (by decide),
      add_topology_for_geo_get_ne _ _ _ _ _ (by decide),
      add_topology_for_geo_get_ne _ _ _ _ _ (by decide),
      add_topology_for_geo_get_self]
    rfl
  | curve =>
    unfold add_topology_sections
    rw [add_topology_for_geo_get_ne _ _ _ _ _ (by decide),
      add_topology_for_geo_get_ne _ _ _ _ _ (by decide),
      add_topology_for_geo_get_self,
      add_topology_for_geo_get_ne _ _ _ _ _ (by decide)]
    rfl
  | surface =>
    unfold add_topology_sections
    rw [add_topology_for_geo_get_ne _ _ _ _ _ (by decide),
      add_topology_for_geo_get_self,
      add_topology_for_geo_get_ne _ _ _ _ _ (by decide),
      add_topology_for_geo_get_ne _ _ _ _ _ (by decide)]
    rfl
  | volume =>
    unfold add_topology_sections
    rw [add_topology_for_geo_get_self,
      add_topology_for_geo_get_ne _ _ _ _ _ (by decide),
      add_topology_for_geo_get_ne _ _ _ _ _ (by decide),
      add_topology_for_geo_get_ne _ _ _ _ _ (by decide)]
    rfl

/-- The four topology section names. -/
def topoSectionNames : List String :=
  ["DNODE-NODE TOPOLOGY", "DLINE-NODE TOPOLOGY", "DSURF-NODE TOPOLOGY",
   "DVOL-NODE TOPOLOGY"]

theorem topoSectionName_mem (g : GeometryType) :
    topoSectionName g ∈ topoSectionNames := by
  cases g <;> simp [topoSectionName, topoSectionNames]

/-- C3: for every non-empty dimensionality bucket the embedded-mesh path
writes a dimensionality-specific topology section whose records are grouped
by set in bucket (exchange) order and, within each set, sorted by ascending
node index, each record carrying kind "NODE", the node index, the set-label
tag and the set's 1-based position; a bucket with no sets produces no
section at all. -/
theorem claim_C3 (node_sets : List (Nat × NodeSetData)) (exo : ExoFile)
    (f : InputFile) (r' : List (Nat × NodeSetData)) (f' : InputFile)
    (hnodup : exo.ns_prop1.Nodup) (hne : node_sets ≠ [])
    (hok : add_node_sets_input_file node_sets exo f = .ok (r', f'))
    (hbc : ∀ p ∈ node_sets, ∀ sn ∈ topoSectionNames,
      p.2.bc_section ≠ some sn)
    (hpre : ∀ sn ∈ topoSectionNames, getSection f sn = none) :
    ∀ g : GeometryType,
      (bucketSpec node_sets exo g (List.range exo.ns_prop1.length) = [] →
        getSection f' (topoSectionName g) = none) ∧
      (bucketSpec node_sets exo g (List.range exo.ns_prop1.length) ≠ [] →
        getSection f' (topoSectionName g) =
          some (topo_content (topoSetLabel g) 0
            (bucketSpec node_sets exo g (List.range exo.ns_prop1.length)))) ∧
      (∀ ns : List Nat,
        List.Sorted (· ≤ ·) (ns.insertionSort (· ≤ ·)) ∧
        (ns.insertionSort (· ≤ ·)).Perm ns) := by
  obtain ⟨b, f1, hp, hf'⟩ := add_node_sets_destruct node_sets exo f r' f'
    hne hok
  rw [List.range_eq_range'] at hp
  obtain ⟨_, _, Q3, Q4⟩ := process_node_sets_master exo
    (build_exo_to_cubit 0 exo.ns_prop1) node_sets (exo_id_map_spec exo)
    hnodup exo.ns_prop1.length 0 NodeSetBuckets.empty node_sets f b r' f1 hp
    (fun _ _ _ _ _ => rfl)
    (fun g => by simp [NodeSetBuckets.get_empty])
  intro g
  have hbget : b.get g =
      bucketSpec node_sets exo g (List.range exo.ns_prop1.length) := by
    rw [Q3 g, NodeSetBuckets.get_empty, List.range_eq_range']
    simp
  have hf1 : getSection f1 (topoSectionName g) =
      getSection f (topoSectionName g) := by
    refine Q4 _ ?_
    intro e cid data he1 he2 hget hlook
    exact hbc (cid, data) (lookupAssoc_mem hlook) _ (topoSectionName_mem g)
  subst hf'
  refine ⟨?_, ?_,
    fun ns => ⟨List.sorted_insertionSort _ _, List.perm_insertionSort _ _⟩⟩
  · intro hempty
    rw [add_topology_sections_get, hbget, hempty]
    simp only [List.length_nil, Nat.lt_irrefl, if_false]
    rw [hf1]
    exact hpre _ (topoSectionName_mem g)
  · intro hne2
    rw [add_topology_sections_get, hbget,
      if_pos (List.length_pos.mpr hne2)]

/-- C3 witness: the theorem instantiated at the claim's example — sets S1
with nodes {5,3} and S2 with nodes {4} in the surface bucket — plus the
concrete emitted node order 3, 5, 4. -/
theorem claim_C3_witness :
    (∀ g : GeometryType,
      (bucketSpec c2_registry c2_exo g
          (List.range c2_exo.ns_prop1.length) = [] →
        getSection c2_deck_out (topoSectionName g) = none) ∧
      (bucketSpec c2_registry c2_exo g
          (List.range c2_exo.ns_prop1.length) ≠ [] →
        getSection c2_deck_out (topoSectionName g) =
          some (topo_content (topoSetLabel g) 0
            (bucketSpec c2_registry c2_exo g
              (List.range c2_exo.ns_prop1.length)))) ∧
      (∀ ns : List Nat,
        List.Sorted (· ≤ ·) (ns.insertionSort (· ≤ ·)) ∧
        (ns.insertionSort (· ≤ ·)).Perm ns)) ∧
    getSection c2_deck_out "DSURF-NODE TOPOLOGY" =
      some [Record.topo "NODE" 3 "DSURFACE" 1,
        Record.topo "NODE" 5 "DSURFACE" 1,
        Record.topo "NODE" 4 "DSURFACE" 2] ∧
    getSection c2_deck_out "DNODE-NODE TOPOLOGY" = none :=
  ⟨claim_C3 c2_registry c2_exo ⟨[]⟩ c2_registry_out c2_deck_out
    (by decide) (by decide) rfl (by decide) (by decide),
   by decide, by decide⟩

/-! ## Claim C8: empty node-set registry -/

/-- `f1` extends `f0` only by records satisfying `P`: every record of every
section of `f1` is either an original record of that section of `f0` or
satisfies `P`. -/
def addsOnly (f0 f1 : InputFile) (P : Record → Prop) : Prop :=
  ∀ s rs, getSection f1 s = some rs → ∀ rec ∈ rs,
    rec ∈ (getSection f0 s).getD [] ∨ P rec

theorem addsOnly_refl (f : InputFile) (P : Record → Prop) :
    addsOnly f f P := by
  intro s rs hrs rec hrec
  rw [hrs]
  exact Or.inl hrec

theorem addsOnly_trans {f0 f1 f2 : InputFile} {P : Record → Prop}
    (h1 : addsOnly f0 f1 P) (h2 : addsOnly f1 f2 P) : addsOnly f0 f2 P := by
  intro s rs hrs rec hrec
  rcases h2 s rs hrs rec hrec with hold | hp
  · cases hv : getSection f1 s with
    | none => rw [hv] at hold; simp at hold
    | some rs1 =>
      rw [hv] at hold
      exact h1 s rs1 hv rec hold
  · exact Or.inr hp

theorem addsOnly_setSection_nil (f : InputFile) (s : String)
    (P : Record → Prop) : addsOnly f (setSection f s []) P := by
  intro s' rs hrs rec hrec
  by_cases h : s = s'
  · subst h
    rw [getSection_setSection_self] at hrs
    injection hrs with h'
    rw [← h'] at hrec
    simp at hrec
  · rw [getSection_setSection_ne _ _ _ _ h] at hrs
    rw [hrs]
    exact Or.inl hrec

theorem addsOnly_appendToSection (f : InputFile) (s : String) (r : Record)
    (P : Record → Prop) (hp : P r) :
    addsOnly f (appendToSection f s r) P := by
  intro s' rs hrs rec hrec
  by_cases h : s = s'
  · subst h
    rw [getSection_appendToSection_self] at hrs
    cases hv : getSection f s with
    | none => rw [hv] at hrs; simp at hrs
    | some c =>
      rw [hv] at hrs
      injection hrs with h'
      rw [← h'] at hrec
      rcases List.mem_append.mp hrec with hin | hin
      · exact Or.inl hin
      · rw [List.mem_singleton] at hin
        rw [hin]
        exact Or.inr hp
  · rw [getSection_appendToSection_ne _ _ _ _ h] at hrs
    rw [hrs]
    exact Or.inl hrec

theorem addsOnly_appendRecords (f : InputFile) (s : String)
    (rs : List Record) (P : Record → Prop) (hp : ∀ r ∈ rs, P r) :
    addsOnly f (appendRecords f s rs) P := by
  induction rs generalizing f with
  | nil => exact addsOnly_refl f P
  | cons r rest ih =>
    have h1 : addsOnly f (appendToSection f s r) P :=
      addsOnly_appendToSection f s r P (hp r (List.mem_cons_self _ _))
    have h2 : addsOnly (appendToSection f s r)
        (appendRecords (appendToSection f s r) s rest) P :=
      ih (appendToSection f s r) (fun r' hr' => hp r' (List.mem_cons_of_mem _ hr'))
    exact addsOnly_trans h1 h2

theorem addsOnly_ensureSection (f : InputFile) (s : String)
    (P : Record → Prop) : addsOnly f (ensureSection f s) P := by
  intro s' rs hrs rec hrec
  by_cases h : s = s'
  · subst h
    rw [getSection_ensureSection_self] at hrs
    injection hrs with h'
    rw [← h'] at hrec
    exact Or.inl hrec
  · rw [getSection_ensureSection_ne _ _ _ h] at hrs
    rw [hrs]
    exact Or.inl hrec

/-- Records of a block contribution are element records. -/
theorem block_contrib_isElem (et : EleType) (bd : Nat) :
    ∀ (rows : List (List Nat)) (i : Nat) (r : Record),
      r ∈ block_contrib et bd i rows →
      ∃ id conn ct dt bdata, r = .element id conn ct dt bdata := by
  intro rows
  induction rows with
  | nil => intro i r h; simp [block_contrib] at h
  | cons conn rest ih =>
    intro i r h
    rw [block_contrib] at h
    rcases List.mem_cons.mp h with rfl | h'
    · exact ⟨_, _, _, _, _, rfl⟩
    · exact ih (i + 1) r h'

/-- One resolved step of the element loop. -/
theorem add_elements_step (blocks : List (Nat × EleType × Nat))
    (exo : ExoFile) (m : List (Nat × Nat)) (e : Nat) (rest : List Nat)
    (i : Nat) (f : InputFile) (cid : Nat) (et : EleType) (bd : Nat)
    (rows : List (List Nat)) (hm : lookupAssoc m e = some cid)
    (hb : lookupAssoc blocks cid = some (et, bd))
    (hc : exo.connect.get? e = some rows) :
    add_elements blocks exo m (e :: rest) i f =
      add_elements blocks exo m rest (i + rows.length)
        (appendRecords (ensureSection f (et.four_c_section ++ " ELEMENTS"))
          (et.four_c_section ++ " ELEMENTS") (block_contrib et bd i rows)) := by
  simp only [add_elements, hm, hb, hc, add_block_rows_spec]

/-- The element loop only adds element records. -/
theorem add_elements_addsOnly (blocks : List (Nat × EleType × Nat))
    (exo : ExoFile) (m : List (Nat × Nat)) :
    ∀ (pending : List Nat) (i : Nat) (f : InputFile) (i' : Nat)
      (f' : InputFile),
      add_elements blocks exo m pending i f = .ok (i', f') →
      addsOnly f f'
        (fun rec => ∃ id conn ct dt bdata,
          rec = .element id conn ct dt bdata) := by
  intro pending
  induction pending with
  | nil =>
    intro i f i' f' hok
    rw [add_elements] at hok
    injection hok with h
    injection h with h1 h2
    subst h2
    exact addsOnly_refl f _
  | cons e rest ih =>
    intro i f i' f' hok
    cases hm : lookupAssoc m e with
    | none =>
      simp only [add_elements, hm] at hok
      exact Except.noConfusion hok
    | some cid =>
      cases hb : lookupAssoc blocks cid with
      | none =>
        simp only [add_elements, hm, hb] at hok
        exact Except.noConfusion hok
      | some etbd =>
        obtain ⟨et, bd⟩ := etbd
        cases hc : exo.connect.get? e with
        | none =>
          simp only [add_elements, hm, hb, hc] at hok
          exact Except.noConfusion hok
        | some rows =>
          rw [add_elements_step blocks exo m e rest i f cid et bd rows hm hb
            hc] at hok
          refine addsOnly_trans (addsOnly_trans
            (addsOnly_ensureSection f _ _)
            (addsOnly_appendRecords _ _ _ _ ?_)) (ih _ _ i' f' hok)
          intro r hr
          exact block_contrib_isElem et bd rows i r hr

/-- Sections that are no block's element section pass through the element
loop unchanged. -/
theorem add_elements_other_sections (blocks : List (Nat × EleType × Nat))
    (exo : ExoFile) (m : List (Nat × Nat)) (s : String) :
    ∀ (pending : List Nat) (i : Nat) (f : InputFile) (i' : Nat)
      (f' : InputFile),
      add_elements blocks exo m pending i f = .ok (i', f') →
      (∀ e ∈ pending, ∀ cid et bd, lookupAssoc m e = some cid →
        lookupAssoc blocks cid = some (et, bd) →
        et.four_c_section ++ " ELEMENTS" ≠ s) →
      getSection f' s = getSection f s := by
  intro pending
  induction pending with
  | nil =>
    intro i f i' f' hok _
    rw [add_elements] at hok
    injection hok with h
    injection h with h1 h2
    subst h2
    rfl
  | cons e rest ih =>
    intro i f i' f' hok hsec
    cases hm : lookupAssoc m e with
    | none =>
      simp only [add_elements, hm] at hok
      exact Except.noConfusion hok
    | some cid =>
      cases hb : lookupAssoc blocks cid with
      | none =>
        simp only [add_elements, hm, hb] at hok
        exact Except.noConfusion hok
      | some etbd =>
        obtain ⟨et, bd⟩ := etbd
        cases hc : exo.connect.get? e with
        | none =>
          simp only [add_elements, hm, hb, hc] at hok
          exact Except.noConfusion hok
        | some rows =>
          rw [add_elements_step blocks exo m e rest i f cid et bd rows hm hb
            hc] at hok
          have hne : et.four_c_section ++ " ELEMENTS" ≠ s :=
            hsec e (List.mem_cons_self _ _) cid et bd hm hb
          rw [ih _ _ i' f' hok
            (fun e' he' => hsec e' (List.mem_cons_of_mem _ he')),
            getSection_appendRecords_ne _ _ _ _ hne,
            getSection_ensureSection_ne _ _ _ hne]

theorem containsSection_appendToSection (f : InputFile) (s' : String)
    (r : Record) (s : String) :
    containsSection (appendToSection f s' r) s = containsSection f s := by
  show (getSection (appendToSection f s' r) s).isSome =
    (getSection f s).isSome
  by_cases hs : s' = s
  · subst hs
    rw [getSection_appendToSection_self]
    cases getSection f s' <;> rfl
  · rw [getSection_appendToSection_ne _ _ _ _ hs]

theorem containsSection_appendRecords (f : InputFile) (s' : String)
    (rs : List Record) (s : String) :
    containsSection (appendRecords f s' rs) s = containsSection f s := by
  induction rs generalizing f with
  | nil => rfl
  | cons r rest ih =>
    show containsSection (appendRecords (appendToSection f s' r) s' rest) s
      = _
    rw [ih, containsSection_appendToSection]

theorem containsSection_setSection_mono (f : InputFile) (s' : String)
    (c : List Record) (s : String) (h : containsSection f s = true) :
    containsSection (setSection f s' c) s = true := by
  show (getSection (setSection f s' c) s).isSome = true
  by_cases hs : s' = s
  · subst hs
    rw [getSection_setSection_self]
    rfl
  · rw [getSection_setSection_ne _ _ _ _ hs]
    exact h

theorem containsSection_ensureSection_mono (f : InputFile) (s' s : String)
    (h : containsSection f s = true) :
    containsSection (ensureSection f s') s = true := by
  unfold ensureSection
  by_cases hc : containsSection f s'
  · rw [if_pos hc]; exact h
  · rw [if_neg hc]; exact containsSection_setSection_mono f s' [] s h

theorem containsSection_ensureSection_self (f : InputFile) (s : String) :
    containsSection (ensureSection f s) s = true := by
  show (getSection (ensureSection f s) s).isSome = true
  rw [getSection_ensureSection_self]
  rfl

/-- The element loop preserves section presence. -/
theorem add_elements_preserves_contains (blocks : List (Nat × EleType × Nat))
    (exo : ExoFile) (m : List (Nat × Nat)) (s : String) :
    ∀ (pending : List Nat) (i : Nat) (f : InputFile) (i' : Nat)
      (f' : InputFile),
      add_elements blocks exo m pending i f = .ok (i', f') →
      containsSection f s = true → containsSection f' s = true := by
  intro pending
  induction pending with
  | nil =>
    intro i f i' f' hok h
    rw [add_elements] at hok
    injection hok with hp
    injection hp with h1 h2
    subst h2
    exact h
  | cons e rest ih =>
    intro i f i' f' hok h
    cases hm : lookupAssoc m e with
    | none =>
      simp only [add_elements, hm] at hok
      exact Except.noConfusion hok
    | some cid =>
      cases hb : lookupAssoc blocks cid with
      | none =>
        simp only [add_elements, hm, hb] at hok
        exact Except.noConfusion hok
      | some etbd =>
        obtain ⟨et, bd⟩ := etbd
        cases hc : exo.connect.get? e with
        | none =>
          simp only [add_elements, hm, hb, hc] at hok
          exact Except.noConfusion hok
        | some rows =>
          rw [add_elements_step blocks exo m e rest i f cid et bd rows hm hb
            hc] at hok
          refine ih _ _ i' f' hok ?_
          rw [containsSection_appendRecords]
          exact containsSection_ensureSection_mono f _ s h

/-- The element loop creates every processed block's element section. -/
theorem add_elements_creates_sections (blocks : List (Nat × EleType × Nat))
    (exo : ExoFile) (m : List (Nat × Nat)) :
    ∀ (pending : List Nat) (i : Nat) (f : InputFile) (i' : Nat)
      (f' : InputFile),
      add_elements blocks exo m pending i f = .ok (i', f') →
      ∀ e ∈ pending, ∀ cid et bd, lookupAssoc m e = some cid →
        lookupAssoc blocks cid = some (et, bd) →
        containsSection f' (et.four_c_section ++ " ELEMENTS") = true := by
  intro pending
  induction pending with
  | nil => intro i f i' f' _ e he; simp at he
  | cons e0 rest ih =>
    intro i f i' f' hok e he cid et bd hme hbe
    cases hm : lookupAssoc m e0 with
    | none =>
      simp only [add_elements, hm] at hok
      exact Except.noConfusion hok
    | some cid0 =>
      cases hb : lookupAssoc blocks cid0 with
      | none =>
        simp only [add_elements, hm, hb] at hok
        exact Except.noConfusion hok
      | some etbd0 =>
        obtain ⟨et0, bd0⟩ := etbd0
        cases hc : exo.connect.get? e0 with
        | none =>
          simp only [add_elements, hm, hb, hc] at hok
          exact Except.noConfusion hok
        | some rows =>
          rw [add_elements_step blocks exo m e0 rest i f cid0 et0 bd0 rows hm
            hb hc] at hok
          rcases List.mem_cons.mp he with rfl | he'
          · have hcid : cid0 = cid := by
              rw [hme] at hm
              exact (Option.some.inj hm).symm
            subst hcid
            rw [hbe] at hb
            injection hb with hpair
            injection hpair with het hbd
            subst het
            refine add_elements_preserves_contains blocks exo m _ _ _ _ i' f'
              hok ?_
            rw [containsSection_appendRecords]
            exact containsSection_ensureSection_self f _
          · exact ih _ _ i' f' hok e he' cid et bd hme hbe

/-- The element loop succeeds when every block resolves. -/
theorem add_elements_ok (blocks : List (Nat × EleType × Nat)) (exo : ExoFile)
    (m : List (Nat × Nat)) (hm : ∀ e, lookupAssoc m e = exo.eb_prop1.get? e)
    (hconnect : exo.connect.length = exo.eb_prop1.length)
    (hblocks : ∀ e, e < exo.eb_prop1.length → ∃ cid et bd,
      exo.eb_prop1.get? e = some cid ∧ lookupAssoc blocks cid = some (et, bd)) :
    ∀ (pending : List Nat), (∀ e ∈ pending, e < exo.eb_prop1.length) →
      ∀ (i : Nat) (f : InputFile), ∃ i' f',
        add_elements blocks exo m pending i f = .ok (i', f') := by
  intro pending
  induction pending with
  | nil => intro _ i f; exact ⟨i, f, rfl⟩
  | cons e rest ih =>
    intro hmem i f
    have he : e < exo.eb_prop1.length := hmem e (List.mem_cons_self _ _)
    obtain ⟨cid, et, bd, hcid, hb⟩ := hblocks e he
    have hlt : e < exo.connect.length := by omega
    have hc : exo.connect.get? e = some (exo.connect.get ⟨e, hlt⟩) :=
      List.get?_eq_get hlt
    obtain ⟨i', f', hrec⟩ :=
      ih (fun e' he' => hmem e' (List.mem_cons_of_mem _ he'))
        (i + (exo.connect.get ⟨e, hlt⟩).length)
        (appendRecords (ensureSection f (et.four_c_section ++ " ELEMENTS"))
          (et.four_c_section ++ " ELEMENTS")
          (block_contrib et bd i (exo.connect.get ⟨e, hlt⟩)))
    refine ⟨i', f', ?_⟩
    rw [add_elements_step blocks exo m e rest i f cid et bd _
      ((hm e).trans hcid) hb hc]
    exact hrec

theorem exo_id_map_spec_eb (exo : ExoFile) :
    ∀ e, lookupAssoc (build_exo_to_cubit 0 exo.eb_prop1) e =
      exo.eb_prop1.get? e := by
  intro e
  rw [lookupAssoc_build_exo_to_cubit]
  simp

theorem addsOnly_mono {f0 f1 : InputFile} {P Q : Record → Prop}
    (hpq : ∀ r, P r → Q r) (h : addsOnly f0 f1 P) : addsOnly f0 f1 Q := by
  intro s rs hrs rec hrec
  rcases h s rs hrs rec hrec with hold | hp
  · exact Or.inl hold
  · exact Or.inr (hpq rec hp)

theorem node_coord_records_isNode :
    ∀ (cs : List (Rat × Rat × Rat)) (i : Nat) (r : Record),
      r ∈ node_coord_records i cs → ∃ id c, r = .node id c := by
  intro cs
  induction cs with
  | nil => intro i r h; simp [node_coord_records] at h
  | cons c rest ih =>
    intro i r h
    rw [node_coord_records] at h
    rcases List.mem_cons.mp h with rfl | h'
    · exact ⟨_, _, rfl⟩
    · exact ih (i + 1) r h'

/-- C8: with an empty node-set registry, the with-mesh deck build succeeds,
creates no topology section and adds no node-set boundary-condition record
(everything it adds is a nodal-coordinate or element record), while the
node-coordinate section and each block's element section are still
populated. -/
theorem claim_C8 (cubit : CubitSession) (exo : ExoFile)
    (hns : cubit.node_sets = [])
    (hconnect : exo.connect.length = exo.eb_prop1.length)
    (hblocks : ∀ e, e < exo.eb_prop1.length → ∃ cid et bd,
      exo.eb_prop1.get? e = some cid ∧
      lookupAssoc cubit.blocks cid = some (et, bd))
    (hpre : ∀ sn ∈ topoSectionNames, getSection cubit.fourc_input sn = none)
    (hsecN : ∀ p ∈ cubit.blocks,
      p.2.1.four_c_section ++ " ELEMENTS" ≠ "NODE COORDS")
    (hsecT : ∀ p ∈ cubit.blocks, ∀ sn ∈ topoSectionNames,
      p.2.1.four_c_section ++ " ELEMENTS" ≠ sn) :
    ∃ deck cubit', get_input_file_with_mesh cubit exo = .ok (deck, cubit') ∧
      (∀ sn ∈ topoSectionNames, getSection deck sn = none) ∧
      getSection deck "NODE COORDS" =
        some (node_coord_records 0 (get_coordinates exo)) ∧
      (∀ s rs, getSection deck s = some rs → ∀ rec ∈ rs,
        rec ∈ (getSection cubit.fourc_input s).getD [] ∨
        (∃ id c, rec = Record.node id c) ∨
        (∃ id conn ct dt bdata,
          rec = Record.element id conn ct dt bdata)) ∧
      (∀ e, e < exo.eb_prop1.length → ∀ cid et bd,
        exo.eb_prop1.get? e = some cid →
        lookupAssoc cubit.blocks cid = some (et, bd) →
        containsSection deck (et.four_c_section ++ " ELEMENTS") = true) := by
  have h1 : add_node_sets_input_file cubit.node_sets exo cubit.fourc_input =
      .ok (cubit.node_sets, cubit.fourc_input) := by
    rw [hns]
    rfl
  have hxb : exo_to_cubit_ids exo "block" =
      .ok (build_entries_info (exo.eb_names.map decode_name) 0 exo.eb_prop1,
        build_cubit_to_exo 0 exo.eb_prop1,
        build_exo_to_cubit 0 exo.eb_prop1) := by
    rw [exo_to_cubit_ids, if_pos rfl]
  obtain ⟨i', f4, hel⟩ := add_elements_ok cubit.blocks exo
    (build_exo_to_cubit 0 exo.eb_prop1) (exo_id_map_spec_eb exo) hconnect
    hblocks (List.range exo.eb_prop1.length)
    (fun e he => List.mem_range.mp he) 0
    (appendRecords (setSection cubit.fourc_input "NODE COORDS" [])
      "NODE COORDS" (node_coord_records 0 (get_coordinates exo)))
  have hgoal : get_input_file_with_mesh cubit exo =
      .ok (f4, { cubit with node_sets := cubit.node_sets }) := by
    unfold get_input_file_with_mesh
    rw [h1]
    dsimp only
    rw [hxb]
    dsimp only
    rw [hel]
  refine ⟨f4, { cubit with node_sets := cubit.node_sets }, hgoal, ?_, ?_,
    ?_, ?_⟩
  · intro sn hsn
    have hother : getSection f4 sn =
        getSection (appendRecords
          (setSection cubit.fourc_input "NODE COORDS" []) "NODE COORDS"
          (node_coord_records 0 (get_coordinates exo))) sn := by
      refine add_elements_other_sections cubit.blocks exo _ sn _ _ _ _ _
        hel ?_
      intro e he cid et bd hme hbe
      exact hsecT (cid, (et, bd)) (lookupAssoc_mem hbe) sn hsn
    have hncne : ("NODE COORDS" : String) ≠ sn := by
      have hall : ∀ x ∈ topoSectionNames, ("NODE COORDS" : String) ≠ x := by
        decide
      exact hall sn hsn
    rw [hother, getSection_appendRecords_ne _ _ _ _ hncne,
      getSection_setSection_ne _ _ _ _ hncne]
    exact hpre sn hsn
  · have hother : getSection f4 "NODE COORDS" =
        getSection (appendRecords
          (setSection cubit.fourc_input "NODE COORDS" []) "NODE COORDS"
          (node_coord_records 0 (get_coordinates exo))) "NODE COORDS" := by
      refine add_elements_other_sections cubit.blocks exo _ _ _ _ _ _ _
        hel ?_
      intro e he cid et bd hme hbe
      exact hsecN (cid, (et, bd)) (lookupAssoc_mem hbe)
    rw [hother, getSection_appendRecords_self, getSection_setSection_self]
    rfl
  · have a1 := addsOnly_setSection_nil cubit.fourc_input "NODE COORDS"
      (fun rec => (∃ id c, rec = Record.node id c) ∨
        (∃ id conn ct dt bdata, rec = Record.element id conn ct dt bdata))
    have a2 := addsOnly_appendRecords
      (setSection cubit.fourc_input "NODE COORDS" []) "NODE COORDS"
      (node_coord_records 0 (get_coordinates exo))
      (fun rec => (∃ id c, rec = Record.node id c) ∨
        (∃ id conn ct dt bdata, rec = Record.element id conn ct dt bdata))
      (fun r hr => Or.inl (node_coord_records_isNode _ 0 r hr))
    have a3 : addsOnly
        (appendRecords (setSection cubit.fourc_input "NODE COORDS" [])
          "NODE COORDS" (node_coord_records 0 (get_coordinates exo))) f4
        (fun rec => (∃ id c, rec = Record.node id c) ∨
          (∃ id conn ct dt bdata,
            rec = Record.element id conn ct dt bdata)) :=
      addsOnly_mono (fun r hr => Or.inr hr)
        (add_elements_addsOnly cubit.blocks exo _ _ _ _ _ _ hel)
    have := addsOnly_trans (addsOnly_trans a1 a2) a3
    intro s rs hrs rec hrec
    exact this s rs hrs rec hrec
  · intro e he cid et bd hcid hbe
    exact add_elements_creates_sections cubit.blocks exo _ _ _ _ _ _ hel e
      (List.mem_range.mpr he) cid et bd
      (((exo_id_map_spec_eb exo) e).trans hcid) hbe

/-- The exodus file for the C8 witness: two blocks, no node sets, 2-D
coordinates. -/
def c8_exo : ExoFile :=
  { ns_prop1 := [], ns_names := [], node_ns := [], eb_prop1 := [2, 1],
    eb_names := [[], []], connect := [[[1], [2], [3]], [[4], [5]]],
    coordx := [1], coordy := [2], coordz := none }

/-- The session for the C8 witness: no node sets, two blocks, a deck with a
pre-existing section. -/
def c8_session : CubitSession := ⟨[], c4_blocks, ⟨[("T", [])]⟩⟩

/-- C8 witness: the theorem instantiated at the concrete empty-registry
session. -/
theorem claim_C8_witness :
    ∃ deck cubit', get_input_file_with_mesh c8_session c8_exo =
      .ok (deck, cubit') ∧
      (∀ sn ∈ topoSectionNames, getSection deck sn = none) ∧
      getSection deck "NODE COORDS" =
        some (node_coord_records 0 (get_coordinates c8_exo)) ∧
      (∀ s rs, getSection deck s = some rs → ∀ rec ∈ rs,
        rec ∈ (getSection c8_session.fourc_input s).getD [] ∨
        (∃ id c, rec = Record.node id c) ∨
        (∃ id conn ct dt bdata,
          rec = Record.element id conn ct dt bdata)) ∧
      (∀ e, e < c8_exo.eb_prop1.length → ∀ cid et bd,
        c8_exo.eb_prop1.get? e = some cid →
        lookupAssoc c8_session.blocks cid = some (et, bd) →
        containsSection deck (et.four_c_section ++ " ELEMENTS") = true) := by
  refine claim_C8 c8_session c8_exo rfl rfl ?_ (by decide) (by decide)
    (by decide)
  intro e he
  have he2 : e < 2 := by simpa [c8_exo] using he
  match e, he2 with
  | 0, _ => exact ⟨2, ⟨"STRUCTURE", "TET4", "SOLID"⟩, 8, rfl, rfl⟩
  | 1, _ => exact ⟨1, ⟨"STRUCTURE", "HEX8", "SOLID"⟩, 7, rfl, rfl⟩
